import Mathlib

/-!
Verification of the IR-modification core (`ir_modifier.cpp`) of the retdec
decompiler against its specification.

The development shallowly embeds the LLVM-level data the code manipulates:
types (`Typ`), constants (`Const`), SSA values (`Value`), and the state of
instruction emission (`ConvState`), and then translates the source functions
`convertToType`, `convertValueToType`, `convertValueToTypeAfter`,
`convertConstantToType`, `detectGlobalVariableInitializerCycle`,
`globalVariableCanBeCreated`, `getGlobalVariable`, `getStackVariable`,
`changeObjectDeclarationType`, `changeObjectType` and `localize` into
executable Lean functions.

Modelling conventions:
* C++ pointers that may be null become `Option`.
* LLVM assertion failures and undefined behaviour (e.g. `cast<T>` on a value
  of the wrong kind, inserting after a null anchor) are modelled as a `fail`
  outcome, distinct from an ordinary null return.
* `convertToType` is recursive in the source; the recursion is bounded in the
  model by an explicit `fuel` argument (the C++ recursion always terminates,
  so every theorem below is conditioned on the call returning, never on a
  specific fuel value).
* Pointer identity of IR objects is modelled by numeric ids; freshly created
  instructions and globals draw ids from a counter, so distinct creations have
  distinct ids.
* Collaborators that live outside the translated file (`Config`, `FileImage`,
  `DebugFormat`, `Abi::getDefaultType`, `modifyFunctionArgumentType`) are
  modelled from the specification; each such definition says so in its doc
  comment.
-/

/-- LLVM types, as used by `ir_modifier.cpp`: void, arbitrary-width integers,
floating types identified by their width (16 = half, 32 = float, 64 = double,
80 = x86_fp80), typed pointers, arrays, structs and an unstructured function
type. -/
inductive Typ where
  | void
  | int (w : Nat)
  | fp (w : Nat)
  | ptr (e : Typ)
  | arr (e : Typ) (n : Nat)
  | strct (fs : List Typ)
  | fnTy
deriving Repr

mutual
def Typ.deq : (a b : Typ) → Decidable (a = b)
  | .void, .void => .isTrue rfl
  | .int w, .int v =>
    if h : w = v then .isTrue (by rw [h]) else .isFalse (fun he => by cases he; exact h rfl)
  | .fp w, .fp v =>
    if h : w = v then .isTrue (by rw [h]) else .isFalse (fun he => by cases he; exact h rfl)
  | .ptr e, .ptr f =>
    match Typ.deq e f with
    | .isTrue h => .isTrue (by rw [h])
    | .isFalse h => .isFalse (fun he => by cases he; exact h rfl)
  | .arr e n, .arr f m =>
    match Typ.deq e f with
    | .isTrue h =>
      if h2 : n = m then .isTrue (by rw [h, h2]) else .isFalse (fun he => by cases he; exact h2 rfl)
    | .isFalse h => .isFalse (fun he => by cases he; exact h rfl)
  | .strct fs, .strct gs =>
    match Typ.deqList fs gs with
    | .isTrue h => .isTrue (by rw [h])
    | .isFalse h => .isFalse (fun he => by cases he; exact h rfl)
  | .fnTy, .fnTy => .isTrue rfl
  | .void, .int _ => .isFalse (fun he => by cases he)
  | .void, .fp _ => .isFalse (fun he => by cases he)
  | .void, .ptr _ => .isFalse (fun he => by cases he)
  | .void, .arr _ _ => .isFalse (fun he => by cases he)
  | .void, .strct _ => .isFalse (fun he => by cases he)
  | .void, .fnTy => .isFalse (fun he => by cases he)
  | .int _, .void => .isFalse (fun he => by cases he)
  | .int _, .fp _ => .isFalse (fun he => by cases he)
  | .int _, .ptr _ => .isFalse (fun he => by cases he)
  | .int _, .arr _ _ => .isFalse (fun he => by cases he)
  | .int _, .strct _ => .isFalse (fun he => by cases he)
  | .int _, .fnTy => .isFalse (fun he => by cases he)
  | .fp _, .void => .isFalse (fun he => by cases he)
  | .fp _, .int _ => .isFalse (fun he => by cases he)
  | .fp _, .ptr _ => .isFalse (fun he => by cases he)
  | .fp _, .arr _ _ => .isFalse (fun he => by cases he)
  | .fp _, .strct _ => .isFalse (fun he => by cases he)
  | .fp _, .fnTy => .isFalse (fun he => by cases he)
  | .ptr _, .void => .isFalse (fun he => by cases he)
  | .ptr _, .int _ => .isFalse (fun he => by cases he)
  | .ptr _, .fp _ => .isFalse (fun he => by cases he)
  | .ptr _, .arr _ _ => .isFalse (fun he => by cases he)
  | .ptr _, .strct _ => .isFalse (fun he => by cases he)
  | .ptr _, .fnTy => .isFalse (fun he => by cases he)
  | .arr _ _, .void => .isFalse (fun he => by cases he)
  | .arr _ _, .int _ => .isFalse (fun he => by cases he)
  | .arr _ _, .fp _ => .isFalse (fun he => by cases he)
  | .arr _ _, .ptr _ => .isFalse (fun he => by cases he)
  | .arr _ _, .strct _ => .isFalse (fun he => by cases he)
  | .arr _ _, .fnTy => .isFalse (fun he => by cases he)
  | .strct _, .void => .isFalse (fun he => by cases he)
  | .strct _, .int _ => .isFalse (fun he => by cases he)
  | .strct _, .fp _ => .isFalse (fun he => by cases he)
  | .strct _, .ptr _ => .isFalse (fun he => by cases he)
  | .strct _, .arr _ _ => .isFalse (fun he => by cases he)
  | .strct _, .fnTy => .isFalse (fun he => by cases he)
  | .fnTy, .void => .isFalse (fun he => by cases he)
  | .fnTy, .int _ => .isFalse (fun he => by cases he)
  | .fnTy, .fp _ => .isFalse (fun he => by cases he)
  | .fnTy, .ptr _ => .isFalse (fun he => by cases he)
  | .fnTy, .arr _ _ => .isFalse (fun he => by cases he)
  | .fnTy, .strct _ => .isFalse (fun he => by cases he)

def Typ.deqList : (a b : List Typ) → Decidable (a = b)
  | [], [] => .isTrue rfl
  | [], _ :: _ => .isFalse (fun he => by cases he)
  | _ :: _, [] => .isFalse (fun he => by cases he)
  | x :: xs, y :: ys =>
    match Typ.deq x y with
    | .isTrue h =>
      match Typ.deqList xs ys with
      | .isTrue h2 => .isTrue (by rw [h, h2])
      | .isFalse h2 => .isFalse (fun he => by cases he; exact h2 rfl)
    | .isFalse h => .isFalse (fun he => by cases he; exact h rfl)
end

instance : DecidableEq Typ := Typ.deq

/-- `Type::isPointerTy`. -/
def Typ.isPointerTy : Typ → Bool
  | .ptr _ => true
  | _ => false

/-- `Type::isIntegerTy`. -/
def Typ.isIntegerTy : Typ → Bool
  | .int _ => true
  | _ => false

/-- `Type::isFloatingPointTy`. -/
def Typ.isFloatingPointTy : Typ → Bool
  | .fp _ => true
  | _ => false

/-- `Type::isAggregateType`: structs and arrays. -/
def Typ.isAggregateType : Typ → Bool
  | .strct _ => true
  | .arr _ _ => true
  | _ => false

/-- `isa<CompositeType>` in the LLVM version the source builds against:
structs, arrays and pointers. -/
def Typ.isCompositeTy : Typ → Bool
  | .strct _ => true
  | .arr _ _ => true
  | .ptr _ => true
  | _ => false

/-- `Type::getPrimitiveSizeInBits`: width for integers and floats, 0 for
everything else (pointers are not primitive). -/
def Typ.primSizeInBits : Typ → Nat
  | .int w => w
  | .fp w => w
  | _ => 0

mutual
/-- `Type::isEmptyTy`: arrays of length 0 or of empty elements, and structs
all of whose fields are empty. -/
def Typ.isEmptyTy : Typ → Bool
  | .arr e n => n == 0 || e.isEmptyTy
  | .strct fs => Typ.allEmptyTy fs
  | _ => false
def Typ.allEmptyTy : List Typ → Bool
  | [] => true
  | f :: fs => f.isEmptyTy && Typ.allEmptyTy fs
end

/-- `CompositeType::getTypeAtIndex(0)`: first struct field, array element,
pointer element. -/
def Typ.typeAtIndex0 : Typ → Option Typ
  | .strct (f :: _) => some f
  | .arr e _ => some e
  | .ptr e => some e
  | _ => none

/-- Result type of `extractvalue ... , 0`; `none` when index 0 is invalid for
the aggregate (LLVM asserts in that case). -/
def Typ.aggTypeAt0 : Typ → Option Typ
  | .strct (f :: _) => some f
  | .arr e (_ + 1) => some e
  | _ => none

/-- Element type of a pointer type (`Type::getPointerElementType`). -/
def Typ.pointerElem : Typ → Option Typ
  | .ptr e => some e
  | _ => none

/-- The cast instruction / constant-expression kinds `convertToType`
produces. `intcast` stands for `CastInst::CreateIntegerCast` with the signed
flag set, as in the source. -/
inductive CastK where
  | bitcast | ptrtoint | inttoptr | intcast | fpcast
deriving DecidableEq, Repr

/-- LLVM constants reachable in this code: integer constants, undef, a
reference to a global variable (a `GlobalVariable` used as a value; its type
is the pointer type of the global), constant cast expressions, constant
`extractvalue`/`insertvalue` at index 0, and struct constants. -/
inductive Const where
  | cint (w : Nat) (v : Int)
  | undefC (t : Typ)
  | gref (g : Nat) (t : Typ)
  | cexpr (k : CastK) (c : Const) (t : Typ)
  | cextr (c : Const) (t : Typ)
  | cins (agg : Const) (v : Const) (t : Typ)
  | cstruct (t : Typ) (fs : List Const)
deriving Repr

mutual
def Const.deq : (a b : Const) → Decidable (a = b)
  | .cint w v, .cint w2 v2 =>
    if h : w = w2 ∧ v = v2 then .isTrue (by rw [h.1, h.2])
    else .isFalse (fun he => by cases he; exact h ⟨rfl, rfl⟩)
  | .undefC t, .undefC t2 =>
    if h : t = t2 then .isTrue (by rw [h]) else .isFalse (fun he => by cases he; exact h rfl)
  | .gref g t, .gref g2 t2 =>
    if h : g = g2 ∧ t = t2 then .isTrue (by rw [h.1, h.2])
    else .isFalse (fun he => by cases he; exact h ⟨rfl, rfl⟩)
  | .cexpr k c t, .cexpr k2 c2 t2 =>
    match Const.deq c c2 with
    | .isTrue h =>
      if h2 : k = k2 ∧ t = t2 then .isTrue (by rw [h, h2.1, h2.2])
      else .isFalse (fun he => by cases he; exact h2 ⟨rfl, rfl⟩)
    | .isFalse h => .isFalse (fun he => by cases he; exact h rfl)
  | .cextr c t, .cextr c2 t2 =>
    match Const.deq c c2 with
    | .isTrue h =>
      if h2 : t = t2 then .isTrue (by rw [h, h2])
      else .isFalse (fun he => by cases he; exact h2 rfl)
    | .isFalse h => .isFalse (fun he => by cases he; exact h rfl)
  | .cins a v t, .cins a2 v2 t2 =>
    match Const.deq a a2 with
    | .isTrue h =>
      match Const.deq v v2 with
      | .isTrue h2 =>
        if h3 : t = t2 then .isTrue (by rw [h, h2, h3])
        else .isFalse (fun he => by cases he; exact h3 rfl)
      | .isFalse h2 => .isFalse (fun he => by cases he; exact h2 rfl)
    | .isFalse h => .isFalse (fun he => by cases he; exact h rfl)
  | .cstruct t fs, .cstruct t2 gs =>
    match Const.deqList fs gs with
    | .isTrue h =>
      if h2 : t = t2 then .isTrue (by rw [h, h2])
      else .isFalse (fun he => by cases he; exact h2 rfl)
    | .isFalse h => .isFalse (fun he => by cases he; exact h rfl)
  | .cint _ _, .undefC _ => .isFalse (fun he => by cases he)
  | .cint _ _, .gref _ _ => .isFalse (fun he => by cases he)
  | .cint _ _, .cexpr _ _ _ => .isFalse (fun he => by cases he)
  | .cint _ _, .cextr _ _ => .isFalse (fun he => by cases he)
  | .cint _ _, .cins _ _ _ => .isFalse (fun he => by cases he)
  | .cint _ _, .cstruct _ _ => .isFalse (fun he => by cases he)
  | .undefC _, .cint _ _ => .isFalse (fun he => by cases he)
  | .undefC _, .gref _ _ => .isFalse (fun he => by cases he)
  | .undefC _, .cexpr _ _ _ => .isFalse (fun he => by cases he)
  | .undefC _, .cextr _ _ => .isFalse (fun he => by cases he)
  | .undefC _, .cins _ _ _ => .isFalse (fun he => by cases he)
  | .undefC _, .cstruct _ _ => .isFalse (fun he => by cases he)
  | .gref _ _, .cint _ _ => .isFalse (fun he => by cases he)
  | .gref _ _, .undefC _ => .isFalse (fun he => by cases he)
  | .gref _ _, .cexpr _ _ _ => .isFalse (fun he => by cases he)
  | .gref _ _, .cextr _ _ => .isFalse (fun he => by cases he)
  | .gref _ _, .cins _ _ _ => .isFalse (fun he => by cases he)
  | .gref _ _, .cstruct _ _ => .isFalse (fun he => by cases he)
  | .cexpr _ _ _, .cint _ _ => .isFalse (fun he => by cases he)
  | .cexpr _ _ _, .undefC _ => .isFalse (fun he => by cases he)
  | .cexpr _ _ _, .gref _ _ => .isFalse (fun he => by cases he)
  | .cexpr _ _ _, .cextr _ _ => .isFalse (fun he => by cases he)
  | .cexpr _ _ _, .cins _ _ _ => .isFalse (fun he => by cases he)
  | .cexpr _ _ _, .cstruct _ _ => .isFalse (fun he => by cases he)
  | .cextr _ _, .cint _ _ => .isFalse (fun he => by cases he)
  | .cextr _ _, .undefC _ => .isFalse (fun he => by cases he)
  | .cextr _ _, .gref _ _ => .isFalse (fun he => by cases he)
  | .cextr _ _, .cexpr _ _ _ => .isFalse (fun he => by cases he)
  | .cextr _ _, .cins _ _ _ => .isFalse (fun he => by cases he)
  | .cextr _ _, .cstruct _ _ => .isFalse (fun he => by cases he)
  | .cins _ _ _, .cint _ _ => .isFalse (fun he => by cases he)
  | .cins _ _ _, .undefC _ => .isFalse (fun he => by cases he)
  | .cins _ _ _, .gref _ _ => .isFalse (fun he => by cases he)
  | .cins _ _ _, .cexpr _ _ _ => .isFalse (fun he => by cases he)
  | .cins _ _ _, .cextr _ _ => .isFalse (fun he => by cases he)
  | .cins _ _ _, .cstruct _ _ => .isFalse (fun he => by cases he)
  | .cstruct _ _, .cint _ _ => .isFalse (fun he => by cases he)
  | .cstruct _ _, .undefC _ => .isFalse (fun he => by cases he)
  | .cstruct _ _, .gref _ _ => .isFalse (fun he => by cases he)
  | .cstruct _ _, .cexpr _ _ _ => .isFalse (fun he => by cases he)
  | .cstruct _ _, .cextr _ _ => .isFalse (fun he => by cases he)
  | .cstruct _ _, .cins _ _ _ => .isFalse (fun he => by cases he)

def Const.deqList : (a b : List Const) → Decidable (a = b)
  | [], [] => .isTrue rfl
  | [], _ :: _ => .isFalse (fun he => by cases he)
  | _ :: _, [] => .isFalse (fun he => by cases he)
  | x :: xs, y :: ys =>
    match Const.deq x y with
    | .isTrue h =>
      match Const.deqList xs ys with
      | .isTrue h2 => .isTrue (by rw [h, h2])
      | .isFalse h2 => .isFalse (fun he => by cases he; exact h2 rfl)
    | .isFalse h => .isFalse (fun he => by cases he; exact h rfl)
end

instance : DecidableEq Const := Const.deq

/-- Type of a constant. -/
def Const.typeOfC : Const → Typ
  | .cint w _ => .int w
  | .undefC t => t
  | .gref _ t => t
  | .cexpr _ _ t => t
  | .cextr _ t => t
  | .cins _ _ t => t
  | .cstruct t _ => t

/-- SSA values: constants (globals used as values are the constant `gref`),
function arguments, and instruction results. Instruction results carry the id
of the instruction that produced them; `othV` stands for the result of any
instruction kind the conversion code does not inspect. -/
inductive Value where
  | cst (c : Const)
  | argV (i : Nat) (t : Typ)
  | allocaV (i : Nat) (e : Typ)
  | loadV (i : Nat) (p : Value) (t : Typ)
  | castV (i : Nat) (k : CastK) (v : Value) (t : Typ)
  | extrV (i : Nat) (v : Value) (t : Typ)
  | insV (i : Nat) (agg : Value) (v : Value) (t : Typ)
  | othV (i : Nat) (t : Typ)
deriving Repr

def Value.deq : (a b : Value) → Decidable (a = b)
  | .cst c, .cst c2 =>
    if h : c = c2 then .isTrue (by rw [h]) else .isFalse (fun he => by cases he; exact h rfl)
  | .argV i t, .argV i2 t2 =>
    if h : i = i2 ∧ t = t2 then .isTrue (by rw [h.1, h.2])
    else .isFalse (fun he => by cases he; exact h ⟨rfl, rfl⟩)
  | .allocaV i e, .allocaV i2 e2 =>
    if h : i = i2 ∧ e = e2 then .isTrue (by rw [h.1, h.2])
    else .isFalse (fun he => by cases he; exact h ⟨rfl, rfl⟩)
  | .loadV i p t, .loadV i2 p2 t2 =>
    match Value.deq p p2 with
    | .isTrue h =>
      if h2 : i = i2 ∧ t = t2 then .isTrue (by rw [h, h2.1, h2.2])
      else .isFalse (fun he => by cases he; exact h2 ⟨rfl, rfl⟩)
    | .isFalse h => .isFalse (fun he => by cases he; exact h rfl)
  | .castV i k v t, .castV i2 k2 v2 t2 =>
    match Value.deq v v2 with
    | .isTrue h =>
      if h2 : i = i2 ∧ k = k2 ∧ t = t2 then .isTrue (by rw [h, h2.1, h2.2.1, h2.2.2])
      else .isFalse (fun he => by cases he; exact h2 ⟨rfl, rfl, rfl⟩)
    | .isFalse h => .isFalse (fun he => by cases he; exact h rfl)
  | .extrV i v t, .extrV i2 v2 t2 =>
    match Value.deq v v2 with
    | .isTrue h =>
      if h2 : i = i2 ∧ t = t2 then .isTrue (by rw [h, h2.1, h2.2])
      else .isFalse (fun he => by cases he; exact h2 ⟨rfl, rfl⟩)
    | .isFalse h => .isFalse (fun he => by cases he; exact h rfl)
  | .insV i a v t, .insV i2 a2 v2 t2 =>
    match Value.deq a a2 with
    | .isTrue h =>
      match Value.deq v v2 with
      | .isTrue h2 =>
        if h3 : i = i2 ∧ t = t2 then .isTrue (by rw [h, h2, h3.1, h3.2])
        else .isFalse (fun he => by cases he; exact h3 ⟨rfl, rfl⟩)
      | .isFalse h2 => .isFalse (fun he => by cases he; exact h2 rfl)
    | .isFalse h => .isFalse (fun he => by cases he; exact h rfl)
  | .othV i t, .othV i2 t2 =>
    if h : i = i2 ∧ t = t2 then .isTrue (by rw [h.1, h.2])
    else .isFalse (fun he => by cases he; exact h ⟨rfl, rfl⟩)
  | .cst _, .argV _ _ => .isFalse (fun he => by cases he)
  | .cst _, .allocaV _ _ => .isFalse (fun he => by cases he)
  | .cst _, .loadV _ _ _ => .isFalse (fun he => by cases he)
  | .cst _, .castV _ _ _ _ => .isFalse (fun he => by cases he)
  | .cst _, .extrV _ _ _ => .isFalse (fun he => by cases he)
  | .cst _, .insV _ _ _ _ => .isFalse (fun he => by cases he)
  | .cst _, .othV _ _ => .isFalse (fun he => by cases he)
  | .argV _ _, .cst _ => .isFalse (fun he => by cases he)
  | .argV _ _, .allocaV _ _ => .isFalse (fun he => by cases he)
  | .argV _ _, .loadV _ _ _ => .isFalse (fun he => by cases he)
  | .argV _ _, .castV _ _ _ _ => .isFalse (fun he => by cases he)
  | .argV _ _, .extrV _ _ _ => .isFalse (fun he => by cases he)
  | .argV _ _, .insV _ _ _ _ => .isFalse (fun he => by cases he)
  | .argV _ _, .othV _ _ => .isFalse (fun he => by cases he)
  | .allocaV _ _, .cst _ => .isFalse (fun he => by cases he)
  | .allocaV _ _, .argV _ _ => .isFalse (fun he => by cases he)
  | .allocaV _ _, .loadV _ _ _ => .isFalse (fun he => by cases he)
  | .allocaV _ _, .castV _ _ _ _ => .isFalse (fun he => by cases he)
  | .allocaV _ _, .extrV _ _ _ => .isFalse (fun he => by cases he)
  | .allocaV _ _, .insV _ _ _ _ => .isFalse (fun he => by cases he)
  | .allocaV _ _, .othV _ _ => .isFalse (fun he => by cases he)
  | .loadV _ _ _, .cst _ => .isFalse (fun he => by cases he)
  | .loadV _ _ _, .argV _ _ => .isFalse (fun he => by cases he)
  | .loadV _ _ _, .allocaV _ _ => .isFalse (fun he => by cases he)
  | .loadV _ _ _, .castV _ _ _ _ => .isFalse (fun he => by cases he)
  | .loadV _ _ _, .extrV _ _ _ => .isFalse (fun he => by cases he)
  | .loadV _ _ _, .insV _ _ _ _ => .isFalse (fun he => by cases he)
  | .loadV _ _ _, .othV _ _ => .isFalse (fun he => by cases he)
  | .castV _ _ _ _, .cst _ => .isFalse (fun he => by cases he)
  | .castV _ _ _ _, .argV _ _ => .isFalse (fun he => by cases he)
  | .castV _ _ _ _, .allocaV _ _ => .isFalse (fun he => by cases he)
  | .castV _ _ _ _, .loadV _ _ _ => .isFalse (fun he => by cases he)
  | .castV _ _ _ _, .extrV _ _ _ => .isFalse (fun he => by cases he)
  | .castV _ _ _ _, .insV _ _ _ _ => .isFalse (fun he => by cases he)
  | .castV _ _ _ _, .othV _ _ => .isFalse (fun he => by cases he)
  | .extrV _ _ _, .cst _ => .isFalse (fun he => by cases he)
  | .extrV _ _ _, .argV _ _ => .isFalse (fun he => by cases he)
  | .extrV _ _ _, .allocaV _ _ => .isFalse (fun he => by cases he)
  | .extrV _ _ _, .loadV _ _ _ => .isFalse (fun he => by cases he)
  | .extrV _ _ _, .castV _ _ _ _ => .isFalse (fun he => by cases he)
  | .extrV _ _ _, .insV _ _ _ _ => .isFalse (fun he => by cases he)
  | .extrV _ _ _, .othV _ _ => .isFalse (fun he => by cases he)
  | .insV _ _ _ _, .cst _ => .isFalse (fun he => by cases he)
  | .insV _ _ _ _, .argV _ _ => .isFalse (fun he => by cases he)
  | .insV _ _ _ _, .allocaV _ _ => .isFalse (fun he => by cases he)
  | .insV _ _ _ _, .loadV _ _ _ => .isFalse (fun he => by cases he)
  | .insV _ _ _ _, .castV _ _ _ _ => .isFalse (fun he => by cases he)
  | .insV _ _ _ _, .extrV _ _ _ => .isFalse (fun he => by cases he)
  | .insV _ _ _ _, .othV _ _ => .isFalse (fun he => by cases he)
  | .othV _ _, .cst _ => .isFalse (fun he => by cases he)
  | .othV _ _, .argV _ _ => .isFalse (fun he => by cases he)
  | .othV _ _, .allocaV _ _ => .isFalse (fun he => by cases he)
  | .othV _ _, .loadV _ _ _ => .isFalse (fun he => by cases he)
  | .othV _ _, .castV _ _ _ _ => .isFalse (fun he => by cases he)
  | .othV _ _, .extrV _ _ _ => .isFalse (fun he => by cases he)
  | .othV _ _, .insV _ _ _ _ => .isFalse (fun he => by cases he)

instance : DecidableEq Value := Value.deq

/-- Type of a value. An alloca produces a pointer to its allocated type. -/
def Value.typeOfV : Value → Typ
  | .cst c => c.typeOfC
  | .argV _ t => t
  | .allocaV _ e => .ptr e
  | .loadV _ _ t => t
  | .castV _ _ _ t => t
  | .extrV _ _ t => t
  | .insV _ _ _ t => t
  | .othV _ t => t

/-- `dyn_cast<Constant>`: globals used as values are constants. -/
def Value.asConst : Value → Option Const
  | .cst c => some c
  | _ => none

/-- `dyn_cast<Instruction>`: id of the producing instruction, `none` for
constants and arguments. -/
def Value.asInstId : Value → Option Nat
  | .allocaV i _ => some i
  | .loadV i _ _ => some i
  | .castV i _ _ _ => some i
  | .extrV i _ _ => some i
  | .insV i _ _ _ => some i
  | .othV i _ => some i
  | _ => none

/-- `isa<LoadInst>`. -/
def Value.isLoadV : Value → Bool
  | .loadV _ _ _ => true
  | _ => false

/-- Pointer operand of a load (`LoadInst::getPointerOperand`). -/
def Value.loadPtrOp : Value → Option Value
  | .loadV _ p _ => some p
  | _ => none

/-- Where a created instruction was inserted: before or after the
instruction with the given id (`Instruction::insertBefore` / `insertAfter`). -/
inductive Pos where
  | before (i : Nat)
  | after (i : Nat)
deriving DecidableEq, Repr

/-- State threaded through instruction-creating code: an id counter for fresh
instructions and the list of instructions inserted so far, in order. -/
structure ConvState where
  next : Nat
  emitted : List (Value × Pos)
deriving DecidableEq, Repr

/-- Result of `convertToType`: an LLVM assertion failure / UB (`fail`), a
null return (`retNull`), or a value (`ret`). -/
inductive CResult where
  | fail
  | retNull (st : ConvState)
  | ret (v : Value) (st : ConvState)
deriving DecidableEq, Repr

/-- `insertBeforeAfter`: insert before `b` when `b` is non-null, otherwise
after `a`; `none` when both anchors are null (the source would dereference a
null pointer). -/
def insertBeforeAfter (b a : Option Nat) : Option Pos :=
  match b with
  | some x => some (.before x)
  | none =>
    match a with
    | some y => some (.after y)
    | none => none

/-- Create an instruction with a fresh id and record its insertion. -/
def emitI (mk : Nat → Value) (pos : Pos) (st : ConvState) : Value × ConvState :=
  (mk st.next, ⟨st.next + 1, st.emitted ++ [(mk st.next, pos)]⟩)

/-- One primitive cast step of `convertToType`: a constant cast expression in
const-expr mode (LLVM asserts that the operand is a constant), a freshly
inserted cast instruction in live mode. -/
def emitCast (k : CastK) (v : Value) (t : Typ) (b a : Option Nat) (constExpr : Bool)
    (st : ConvState) : CResult :=
  if constExpr then
    match v.asConst with
    | some c => .ret (.cst (.cexpr k c t)) st
    | none => .fail
  else
    match insertBeforeAfter b a with
    | some pos =>
      let r := emitI (fun i => .castV i k v t) pos st
      .ret r.1 r.2
    | none => .fail

/-- The shape of the recursive call the branch helpers below receive:
`convertToType` at one unit of fuel less. -/
abbrev ConvRec := Option Value → Option Typ → Option Nat → Option Nat → Bool → ConvState →
  CResult

/-- Branch of `convertToType` for integer source and floating-point target:
convert to the integer of the float width, then bit-cast. The insertion
anchor of the bit-cast is `after` when the inner conversion returned the
value unchanged, otherwise the inner conversion instruction
(`cast<Instruction>`, an assertion failure when it is no instruction). -/
def convIntToFp (rec : ConvRec) (val : Value) (type : Typ) (b a : Option Nat) (ce : Bool)
    (st : ConvState) : CResult :=
  match rec (some val) (some (.int type.primSizeInBits)) b a ce st with
  | .ret szConv st1 =>
    if ce then
      match szConv.asConst with
      | some c => .ret (.cst (.cexpr .bitcast c type)) st1
      | none => .fail
    else
      if val = szConv then emitCast .bitcast szConv type b a ce st1
      else
        match szConv.asInstId with
        | some ai => emitCast .bitcast szConv type b (some ai) ce st1
        | none => .fail
  | _ => .fail

/-- Branch for pointer source and floating-point target: via the integer of
the float width, then convert that to the float type. -/
def convPtrToFp (rec : ConvRec) (val : Value) (type : Typ) (b a : Option Nat) (ce : Bool)
    (st : ConvState) : CResult :=
  match rec (some val) (some (.int type.primSizeInBits)) b a ce st with
  | .ret intConv st1 => rec (some intConv) (some type) b intConv.asInstId ce st1
  | _ => .fail

/-- Branch for floating-point source and integer target: for widths
16/32/64/80 go through the float type of matching width and bit-cast,
otherwise fall back through `i32` and an integer cast. -/
def convFpToInt (rec : ConvRec) (val : Value) (type : Typ) (b a : Option Nat) (ce : Bool)
    (st : ConvState) : CResult :=
  if type.primSizeInBits = 16 ∨ type.primSizeInBits = 32 ∨ type.primSizeInBits = 64 ∨
      type.primSizeInBits = 80 then
    if val.typeOfV ≠ Typ.fp type.primSizeInBits then
      match rec (some val) (some (.fp type.primSizeInBits)) b a ce st with
      | .ret fpConv st1 => rec (some fpConv) (some type) b fpConv.asInstId ce st1
      | _ => .fail
    else emitCast .bitcast val type b a ce st
  else
    match rec (some val) (some (.int 32)) b a ce st with
    | .ret fpConv st1 => rec (some fpConv) (some type) b fpConv.asInstId ce st1
    | _ => .fail

/-- Branch for floating-point source and pointer target: via the integer of
the source float width. -/
def convFpToPtr (rec : ConvRec) (val : Value) (type : Typ) (b a : Option Nat) (ce : Bool)
    (st : ConvState) : CResult :=
  match rec (some val) (some (.int val.typeOfV.primSizeInBits)) b a ce st with
  | .ret intConv st1 => rec (some intConv) (some type) b intConv.asInstId ce st1
  | _ => .fail

/-- Branch for a load of an aggregate (live mode only): bit-cast the pointer
operand to a pointer to the target type and issue a fresh load through it,
inserted right after the cast. -/
def convLoadAgg (rec : ConvRec) (val : Value) (type : Typ) (b a : Option Nat) (ce : Bool)
    (st : ConvState) : CResult :=
  match val.loadPtrOp with
  | some p =>
    match rec (some p) (some (.ptr type)) b a ce st with
    | .ret c st1 =>
      match c.asInstId with
      | some ci =>
        match c.typeOfV.pointerElem with
        | some lt =>
          let r := emitI (fun i => .loadV i c lt) (.after ci) st1
          .ret r.1 r.2
        | none => .fail
      | none => .fail
    | _ => .fail
  | none => .fail

/-- Branch for an aggregate source: peel off field 0 with `extractvalue` and
convert the scalar. -/
def convAggSrc (rec : ConvRec) (val : Value) (type : Typ) (b a : Option Nat) (ce : Bool)
    (st : ConvState) : CResult :=
  match val.typeOfV.aggTypeAt0 with
  | some et =>
    if ce then
      match val.asConst with
      | some c =>
        let toSimple := Value.cst (.cextr c et)
        rec (some toSimple) (some type) b toSimple.asInstId ce st
      | none => .fail
    else
      match insertBeforeAfter b a with
      | some pos =>
        let r := emitI (fun i => .extrV i val et) pos st
        rec (some r.1) (some type) b r.1.asInstId ce r.2
      | none => .fail
  | none => .fail

/-- Branch for a composite target type: convert the value to the type at
index 0 and wrap it with `insertvalue` into an undef aggregate (insertvalue
is only legal on aggregates; LLVM asserts otherwise). -/
def convCompositeDst (rec : ConvRec) (val : Value) (type : Typ) (b a : Option Nat) (ce : Bool)
    (st : ConvState) : CResult :=
  if type.isEmptyTy then .fail
  else
    match type.typeAtIndex0 with
    | some idxt =>
      match rec (some val) (some idxt) b a ce st with
      | .ret tmp st1 =>
        if ce then
          match tmp.asConst with
          | some c =>
            if type.isAggregateType then .ret (.cst (.cins (.undefC type) c type)) st1
            else .fail
          | none => .fail
        else
          if type.isAggregateType then
            if val = tmp then
              match insertBeforeAfter b a with
              | some pos =>
                let r := emitI (fun i => .insV i (.cst (.undefC type)) tmp type) pos st1
                .ret r.1 r.2
              | none => .fail
            else
              match tmp.asInstId with
              | some ai =>
                match insertBeforeAfter b (some ai) with
                | some pos =>
                  let r := emitI (fun i => .insV i (.cst (.undefC type)) tmp type) pos st1
                  .ret r.1 r.2
                | none => .fail
              | none => .fail
          else .fail
      | _ => .fail
    | none => .fail

/-- The sixteen branches of the `convertToType` ladder, in source order. -/
inductive ConvBranch where
  | retNullB | assertConstB | identityB | ptrPtrB | ptrIntB | intPtrB | intIntB
  | intFpB | ptrFpB | fpIntB | fpPtrB | fpFpB | loadAggB | aggSrcB | compositeDstB
  | unhandledB
deriving DecidableEq, Repr

/-- Which branch of the `convertToType` if-ladder fires, with the conditions
in exactly the source order. -/
def convBranch (val : Value) (type : Typ) (b a : Option Nat) (ce : Bool) : ConvBranch :=
  if ce = false ∧ b = none ∧ a = none then .retNullB
  else if ce = true ∧ val.asConst = none then .assertConstB
  else if val.typeOfV = type then .identityB
  else if val.typeOfV.isPointerTy ∧ type.isPointerTy then .ptrPtrB
  else if val.typeOfV.isPointerTy ∧ type.isIntegerTy then .ptrIntB
  else if val.typeOfV.isIntegerTy ∧ type.isPointerTy then .intPtrB
  else if val.typeOfV.isIntegerTy ∧ type.isIntegerTy then .intIntB
  else if val.typeOfV.isIntegerTy ∧ type.isFloatingPointTy then .intFpB
  else if val.typeOfV.isPointerTy ∧ type.isFloatingPointTy then .ptrFpB
  else if val.typeOfV.isFloatingPointTy ∧ type.isIntegerTy then .fpIntB
  else if val.typeOfV.isFloatingPointTy ∧ type.isPointerTy then .fpPtrB
  else if val.typeOfV.isFloatingPointTy ∧ type.isFloatingPointTy then .fpFpB
  else if val.isLoadV ∧ val.typeOfV.isAggregateType ∧ ce = false then .loadAggB
  else if val.typeOfV.isAggregateType then .aggSrcB
  else if type.isCompositeTy then .compositeDstB
  else .unhandledB

/-- Shallow embedding of the static `convertToType` of `ir_modifier.cpp`.
The `fuel` argument bounds the recursion depth (see the module comment);
`before`/`after` are the insertion anchors, `constExpr` selects
constant-expression mode. The branch conditions (`convBranch`) and branch
bodies (inline or in the `conv*` helpers above, which receive the recursive
call at the decremented fuel) follow the source ladder exactly. -/
def convertToType : Nat → Option Value → Option Typ → Option Nat → Option Nat → Bool →
    ConvState → CResult
  | 0, _, _, _, _, _, _ => .fail
  | _ + 1, none, _, _, _, _, st => .retNull st
  | _ + 1, some _, none, _, _, _, st => .retNull st
  | fuel + 1, some val, some type, before, after, constExpr, st =>
    match convBranch val type before after constExpr with
    | .retNullB => .retNull st
    | .assertConstB => .fail
    | .identityB => .ret val st
    | .ptrPtrB => emitCast .bitcast val type before after constExpr st
    | .ptrIntB => emitCast .ptrtoint val type before after constExpr st
    | .intPtrB => emitCast .inttoptr val type before after constExpr st
    | .intIntB => emitCast .intcast val type before after constExpr st
    | .intFpB => convIntToFp (convertToType fuel) val type before after constExpr st
    | .ptrFpB => convPtrToFp (convertToType fuel) val type before after constExpr st
    | .fpIntB => convFpToInt (convertToType fuel) val type before after constExpr st
    | .fpPtrB => convFpToPtr (convertToType fuel) val type before after constExpr st
    | .fpFpB => emitCast .fpcast val type before after constExpr st
    | .loadAggB => convLoadAgg (convertToType fuel) val type before after constExpr st
    | .aggSrcB => convAggSrc (convertToType fuel) val type before after constExpr st
    | .compositeDstB => convCompositeDst (convertToType fuel) val type before after constExpr st
    | .unhandledB => .fail

/-- `IrModifier::convertValueToType`: live conversion inserting before the
given instruction. -/
def convertValueToType (fuel : Nat) (val : Option Value) (type : Option Typ)
    (before : Option Nat) (st : ConvState) : CResult :=
  convertToType fuel val type before none false st

/-- `IrModifier::convertValueToTypeAfter`: live conversion inserting after
the given instruction. -/
def convertValueToTypeAfter (fuel : Nat) (val : Option Value) (type : Option Typ)
    (after : Option Nat) (st : ConvState) : CResult :=
  convertToType fuel val type none after false st

/-- `IrModifier::convertConstantToType`: constant-expression-mode conversion.
Returns `none` both for a null result and for the assertion failure on a
non-constant result (LLVM aborts in that case). The emission state is
irrelevant in const-expr mode (proved below), so a dummy state is used. -/
def convertConstantToType (fuel : Nat) (val : Const) (type : Typ) : Option Const :=
  match convertToType fuel (some (.cst val)) (some type) none none true ⟨0, []⟩ with
  | .ret v _ => v.asConst
  | _ => none

example :
    convertValueToType 9 (some (.othV 7 (.int 32))) (some (.int 64)) (some 5) ⟨10, []⟩ =
      .ret (.castV 10 .intcast (.othV 7 (.int 32)) (.int 64)) ⟨11, [(.castV 10 .intcast (.othV 7 (.int 32)) (.int 64), .before 5)]⟩ := by
  decide

example :
    convertConstantToType 9 (.cint 32 4) (.fp 32) =
      some (.cexpr .bitcast (.cint 32 4) (.fp 32)) := by
  decide

example :
    convertConstantToType 9 (.cint 32 4) (.int 32) = some (.cint 32 4) := by
  decide

/-- `emitCast` yields a value of the requested type. -/
theorem emitCast_ret_type (k : CastK) (v : Value) (t : Typ) (b a : Option Nat) (ce : Bool)
    (st : ConvState) (u : Value) (st2 : ConvState) :
    emitCast k v t b a ce st = .ret u st2 → u.typeOfV = t := by
  intro h
  unfold emitCast at h
  split at h
  · split at h
    · cases h; rfl
    · cases h
  · split at h
    · cases h; rfl
    · cases h

/-- In const-expr mode `emitCast` returns a constant cast expression and
leaves the emission state untouched. -/
theorem emitCast_constExpr (k : CastK) (v : Value) (t : Typ) (b a : Option Nat)
    (st : ConvState) (u : Value) (st2 : ConvState) :
    emitCast k v t b a true st = .ret u st2 → (∃ c, u = .cst c) ∧ st2 = st := by
  intro h
  unfold emitCast at h
  split at h
  · split at h
    · cases h; exact ⟨⟨_, rfl⟩, rfl⟩
    · cases h
  · rename_i hc; exact absurd rfl hc


/-- The property that successful conversions return a value of the requested
type, as a predicate on a recursive-call argument. -/
def RecRetType (rec : ConvRec) : Prop :=
  ∀ (val : Value) (type : Typ) (b a : Option Nat) (ce : Bool) (st : ConvState)
    (v : Value) (st2 : ConvState),
    rec (some val) (some type) b a ce st = .ret v st2 → v.typeOfV = type

theorem convIntToFp_ret_type (rec : ConvRec) (_hrec : RecRetType rec) (val : Value) (type : Typ)
    (b a : Option Nat) (ce : Bool) (st : ConvState) (v : Value) (st2 : ConvState) :
    convIntToFp rec val type b a ce st = .ret v st2 → v.typeOfV = type := by
  intro h
  unfold convIntToFp at h
  repeat' split at h
  all_goals try cases h
  all_goals try rfl
  all_goals exact emitCast_ret_type _ _ _ _ _ _ _ _ _ h

theorem convPtrToFp_ret_type (rec : ConvRec) (hrec : RecRetType rec) (val : Value) (type : Typ)
    (b a : Option Nat) (ce : Bool) (st : ConvState) (v : Value) (st2 : ConvState) :
    convPtrToFp rec val type b a ce st = .ret v st2 → v.typeOfV = type := by
  intro h
  unfold convPtrToFp at h
  repeat' split at h
  all_goals try cases h
  all_goals exact hrec _ _ _ _ _ _ _ _ h

theorem convFpToInt_ret_type (rec : ConvRec) (hrec : RecRetType rec) (val : Value) (type : Typ)
    (b a : Option Nat) (ce : Bool) (st : ConvState) (v : Value) (st2 : ConvState) :
    convFpToInt rec val type b a ce st = .ret v st2 → v.typeOfV = type := by
  intro h
  unfold convFpToInt at h
  repeat' split at h
  all_goals try cases h
  all_goals try exact emitCast_ret_type _ _ _ _ _ _ _ _ _ h
  all_goals exact hrec _ _ _ _ _ _ _ _ h

theorem convFpToPtr_ret_type (rec : ConvRec) (hrec : RecRetType rec) (val : Value) (type : Typ)
    (b a : Option Nat) (ce : Bool) (st : ConvState) (v : Value) (st2 : ConvState) :
    convFpToPtr rec val type b a ce st = .ret v st2 → v.typeOfV = type := by
  intro h
  unfold convFpToPtr at h
  repeat' split at h
  all_goals try cases h
  all_goals exact hrec _ _ _ _ _ _ _ _ h

theorem convLoadAgg_ret_type (rec : ConvRec) (hrec : RecRetType rec) (val : Value) (type : Typ)
    (b a : Option Nat) (ce : Bool) (st : ConvState) (v : Value) (st2 : ConvState) :
    convLoadAgg rec val type b a ce st = .ret v st2 → v.typeOfV = type := by
  intro h
  unfold convLoadAgg at h
  split at h
  case h_2 => cases h
  rename_i p hp
  split at h
  case h_2 => cases h
  rename_i r c st1 hrc
  split at h
  case h_2 => cases h
  rename_i ci hci
  split at h
  case h_2 => cases h
  rename_i lt hlt
  cases h
  have ht := hrec _ _ _ _ _ _ _ _ hrc
  rw [ht] at hlt
  simp only [Typ.pointerElem, Option.some.injEq] at hlt
  simpa [emitI, Value.typeOfV] using hlt.symm

theorem convAggSrc_ret_type (rec : ConvRec) (hrec : RecRetType rec) (val : Value) (type : Typ)
    (b a : Option Nat) (ce : Bool) (st : ConvState) (v : Value) (st2 : ConvState) :
    convAggSrc rec val type b a ce st = .ret v st2 → v.typeOfV = type := by
  intro h
  unfold convAggSrc at h
  repeat' split at h
  all_goals try cases h
  all_goals exact hrec _ _ _ _ _ _ _ _ h

theorem convCompositeDst_ret_type (rec : ConvRec) (_hrec : RecRetType rec) (val : Value)
    (type : Typ) (b a : Option Nat) (ce : Bool) (st : ConvState) (v : Value) (st2 : ConvState) :
    convCompositeDst rec val type b a ce st = .ret v st2 → v.typeOfV = type := by
  intro h
  unfold convCompositeDst at h
  repeat' split at h
  all_goals try cases h
  all_goals rfl

/-- Inversion facts about the branch selector, proved once by peeling the
ladder: reaching a branch implies that branch's guard holds (and for the
identity branch, that the const-expr assertion guard did not fire).
The conjuncts are in ladder order, ending with the extra identity fact. -/
theorem convBranch_inv (val : Value) (type : Typ) (b a : Option Nat) (ce : Bool) :
    (convBranch val type b a ce = .retNullB → (ce = false ∧ b = none ∧ a = none)) ∧
    (convBranch val type b a ce = .assertConstB → (ce = true ∧ val.asConst = none)) ∧
    (convBranch val type b a ce = .identityB → (val.typeOfV = type)) ∧
    (convBranch val type b a ce = .ptrPtrB → (val.typeOfV.isPointerTy = true ∧ type.isPointerTy = true)) ∧
    (convBranch val type b a ce = .ptrIntB → (val.typeOfV.isPointerTy = true ∧ type.isIntegerTy = true)) ∧
    (convBranch val type b a ce = .intPtrB → (val.typeOfV.isIntegerTy = true ∧ type.isPointerTy = true)) ∧
    (convBranch val type b a ce = .intIntB → (val.typeOfV.isIntegerTy = true ∧ type.isIntegerTy = true)) ∧
    (convBranch val type b a ce = .intFpB → (val.typeOfV.isIntegerTy = true ∧ type.isFloatingPointTy = true)) ∧
    (convBranch val type b a ce = .ptrFpB → (val.typeOfV.isPointerTy = true ∧ type.isFloatingPointTy = true)) ∧
    (convBranch val type b a ce = .fpIntB → (val.typeOfV.isFloatingPointTy = true ∧ type.isIntegerTy = true)) ∧
    (convBranch val type b a ce = .fpPtrB → (val.typeOfV.isFloatingPointTy = true ∧ type.isPointerTy = true)) ∧
    (convBranch val type b a ce = .fpFpB → (val.typeOfV.isFloatingPointTy = true ∧ type.isFloatingPointTy = true)) ∧
    (convBranch val type b a ce = .loadAggB → (val.isLoadV = true ∧ val.typeOfV.isAggregateType = true ∧ ce = false)) ∧
    (convBranch val type b a ce = .aggSrcB → (val.typeOfV.isAggregateType = true)) ∧
    (convBranch val type b a ce = .compositeDstB → (type.isCompositeTy = true)) ∧
    (convBranch val type b a ce = .identityB → (¬(ce = true ∧ val.asConst = none))) := by
  unfold convBranch
  by_cases h1 : ce = false ∧ b = none ∧ a = none
  · rw [if_pos h1]
    exact ⟨fun _ => h1,
      fun h => ConvBranch.noConfusion h,
      fun h => ConvBranch.noConfusion h,
      fun h => ConvBranch.noConfusion h,
      fun h => ConvBranch.noConfusion h,
      fun h => ConvBranch.noConfusion h,
      fun h => ConvBranch.noConfusion h,
      fun h => ConvBranch.noConfusion h,
      fun h => ConvBranch.noConfusion h,
      fun h => ConvBranch.noConfusion h,
      fun h => ConvBranch.noConfusion h,
      fun h => ConvBranch.noConfusion h,
      fun h => ConvBranch.noConfusion h,
      fun h => ConvBranch.noConfusion h,
      fun h => ConvBranch.noConfusion h,
      fun h => ConvBranch.noConfusion h⟩
  rw [if_neg h1]
  by_cases h2 : ce = true ∧ val.asConst = none
  · rw [if_pos h2]
    exact ⟨fun h => ConvBranch.noConfusion h,
      fun _ => h2,
      fun h => ConvBranch.noConfusion h,
      fun h => ConvBranch.noConfusion h,
      fun h => ConvBranch.noConfusion h,
      fun h => ConvBranch.noConfusion h,
      fun h => ConvBranch.noConfusion h,
      fun h => ConvBranch.noConfusion h,
      fun h => ConvBranch.noConfusion h,
      fun h => ConvBranch.noConfusion h,
      fun h => ConvBranch.noConfusion h,
      fun h => ConvBranch.noConfusion h,
      fun h => ConvBranch.noConfusion h,
      fun h => ConvBranch.noConfusion h,
      fun h => ConvBranch.noConfusion h,
      fun h => ConvBranch.noConfusion h⟩
  rw [if_neg h2]
  by_cases h3 : val.typeOfV = type
  · rw [if_pos h3]
    exact ⟨fun h => ConvBranch.noConfusion h,
      fun h => ConvBranch.noConfusion h,
      fun _ => h3,
      fun h => ConvBranch.noConfusion h,
      fun h => ConvBranch.noConfusion h,
      fun h => ConvBranch.noConfusion h,
      fun h => ConvBranch.noConfusion h,
      fun h => ConvBranch.noConfusion h,
      fun h => ConvBranch.noConfusion h,
      fun h => ConvBranch.noConfusion h,
      fun h => ConvBranch.noConfusion h,
      fun h => ConvBranch.noConfusion h,
      fun h => ConvBranch.noConfusion h,
      fun h => ConvBranch.noConfusion h,
      fun h => ConvBranch.noConfusion h,
      fun _ => h2⟩
  rw [if_neg h3]
  by_cases h4 : val.typeOfV.isPointerTy = true ∧ type.isPointerTy = true
  · rw [if_pos h4]
    exact ⟨fun h => ConvBranch.noConfusion h,
      fun h => ConvBranch.noConfusion h,
      fun h => ConvBranch.noConfusion h,
      fun _ => h4,
      fun h => ConvBranch.noConfusion h,
      fun h => ConvBranch.noConfusion h,
      fun h => ConvBranch.noConfusion h,
      fun h => ConvBranch.noConfusion h,
      fun h => ConvBranch.noConfusion h,
      fun h => ConvBranch.noConfusion h,
      fun h => ConvBranch.noConfusion h,
      fun h => ConvBranch.noConfusion h,
      fun h => ConvBranch.noConfusion h,
      fun h => ConvBranch.noConfusion h,
      fun h => ConvBranch.noConfusion h,
      fun h => ConvBranch.noConfusion h⟩
  rw [if_neg h4]
  by_cases h5 : val.typeOfV.isPointerTy = true ∧ type.isIntegerTy = true
  · rw [if_pos h5]
    exact ⟨fun h => ConvBranch.noConfusion h,
      fun h => ConvBranch.noConfusion h,
      fun h => ConvBranch.noConfusion h,
      fun h => ConvBranch.noConfusion h,
      fun _ => h5,
      fun h => ConvBranch.noConfusion h,
      fun h => ConvBranch.noConfusion h,
      fun h => ConvBranch.noConfusion h,
      fun h => ConvBranch.noConfusion h,
      fun h => ConvBranch.noConfusion h,
      fun h => ConvBranch.noConfusion h,
      fun h => ConvBranch.noConfusion h,
      fun h => ConvBranch.noConfusion h,
      fun h => ConvBranch.noConfusion h,
      fun h => ConvBranch.noConfusion h,
      fun h => ConvBranch.noConfusion h⟩
  rw [if_neg h5]
  by_cases h6 : val.typeOfV.isIntegerTy = true ∧ type.isPointerTy = true
  · rw [if_pos h6]
    exact ⟨fun h => ConvBranch.noConfusion h,
      fun h => ConvBranch.noConfusion h,
      fun h => ConvBranch.noConfusion h,
      fun h => ConvBranch.noConfusion h,
      fun h => ConvBranch.noConfusion h,
      fun _ => h6,
      fun h => ConvBranch.noConfusion h,
      fun h => ConvBranch.noConfusion h,
      fun h => ConvBranch.noConfusion h,
      fun h => ConvBranch.noConfusion h,
      fun h => ConvBranch.noConfusion h,
      fun h => ConvBranch.noConfusion h,
      fun h => ConvBranch.noConfusion h,
      fun h => ConvBranch.noConfusion h,
      fun h => ConvBranch.noConfusion h,
      fun h => ConvBranch.noConfusion h⟩
  rw [if_neg h6]
  by_cases h7 : val.typeOfV.isIntegerTy = true ∧ type.isIntegerTy = true
  · rw [if_pos h7]
    exact ⟨fun h => ConvBranch.noConfusion h,
      fun h => ConvBranch.noConfusion h,
      fun h => ConvBranch.noConfusion h,
      fun h => ConvBranch.noConfusion h,
      fun h => ConvBranch.noConfusion h,
      fun h => ConvBranch.noConfusion h,
      fun _ => h7,
      fun h => ConvBranch.noConfusion h,
      fun h => ConvBranch.noConfusion h,
      fun h => ConvBranch.noConfusion h,
      fun h => ConvBranch.noConfusion h,
      fun h => ConvBranch.noConfusion h,
      fun h => ConvBranch.noConfusion h,
      fun h => ConvBranch.noConfusion h,
      fun h => ConvBranch.noConfusion h,
      fun h => ConvBranch.noConfusion h⟩
  rw [if_neg h7]
  by_cases h8 : val.typeOfV.isIntegerTy = true ∧ type.isFloatingPointTy = true
  · rw [if_pos h8]
    exact ⟨fun h => ConvBranch.noConfusion h,
      fun h => ConvBranch.noConfusion h,
      fun h => ConvBranch.noConfusion h,
      fun h => ConvBranch.noConfusion h,
      fun h => ConvBranch.noConfusion h,
      fun h => ConvBranch.noConfusion h,
      fun h => ConvBranch.noConfusion h,
      fun _ => h8,
      fun h => ConvBranch.noConfusion h,
      fun h => ConvBranch.noConfusion h,
      fun h => ConvBranch.noConfusion h,
      fun h => ConvBranch.noConfusion h,
      fun h => ConvBranch.noConfusion h,
      fun h => ConvBranch.noConfusion h,
      fun h => ConvBranch.noConfusion h,
      fun h => ConvBranch.noConfusion h⟩
  rw [if_neg h8]
  by_cases h9 : val.typeOfV.isPointerTy = true ∧ type.isFloatingPointTy = true
  · rw [if_pos h9]
    exact ⟨fun h => ConvBranch.noConfusion h,
      fun h => ConvBranch.noConfusion h,
      fun h => ConvBranch.noConfusion h,
      fun h => ConvBranch.noConfusion h,
      fun h => ConvBranch.noConfusion h,
      fun h => ConvBranch.noConfusion h,
      fun h => ConvBranch.noConfusion h,
      fun h => ConvBranch.noConfusion h,
      fun _ => h9,
      fun h => ConvBranch.noConfusion h,
      fun h => ConvBranch.noConfusion h,
      fun h => ConvBranch.noConfusion h,
      fun h => ConvBranch.noConfusion h,
      fun h => ConvBranch.noConfusion h,
      fun h => ConvBranch.noConfusion h,
      fun h => ConvBranch.noConfusion h⟩
  rw [if_neg h9]
  by_cases h10 : val.typeOfV.isFloatingPointTy = true ∧ type.isIntegerTy = true
  · rw [if_pos h10]
    exact ⟨fun h => ConvBranch.noConfusion h,
      fun h => ConvBranch.noConfusion h,
      fun h => ConvBranch.noConfusion h,
      fun h => ConvBranch.noConfusion h,
      fun h => ConvBranch.noConfusion h,
      fun h => ConvBranch.noConfusion h,
      fun h => ConvBranch.noConfusion h,
      fun h => ConvBranch.noConfusion h,
      fun h => ConvBranch.noConfusion h,
      fun _ => h10,
      fun h => ConvBranch.noConfusion h,
      fun h => ConvBranch.noConfusion h,
      fun h => ConvBranch.noConfusion h,
      fun h => ConvBranch.noConfusion h,
      fun h => ConvBranch.noConfusion h,
      fun h => ConvBranch.noConfusion h⟩
  rw [if_neg h10]
  by_cases h11 : val.typeOfV.isFloatingPointTy = true ∧ type.isPointerTy = true
  · rw [if_pos h11]
    exact ⟨fun h => ConvBranch.noConfusion h,
      fun h => ConvBranch.noConfusion h,
      fun h => ConvBranch.noConfusion h,
      fun h => ConvBranch.noConfusion h,
      fun h => ConvBranch.noConfusion h,
      fun h => ConvBranch.noConfusion h,
      fun h => ConvBranch.noConfusion h,
      fun h => ConvBranch.noConfusion h,
      fun h => ConvBranch.noConfusion h,
      fun h => ConvBranch.noConfusion h,
      fun _ => h11,
      fun h => ConvBranch.noConfusion h,
      fun h => ConvBranch.noConfusion h,
      fun h => ConvBranch.noConfusion h,
      fun h => ConvBranch.noConfusion h,
      fun h => ConvBranch.noConfusion h⟩
  rw [if_neg h11]
  by_cases h12 : val.typeOfV.isFloatingPointTy = true ∧ type.isFloatingPointTy = true
  · rw [if_pos h12]
    exact ⟨fun h => ConvBranch.noConfusion h,
      fun h => ConvBranch.noConfusion h,
      fun h => ConvBranch.noConfusion h,
      fun h => ConvBranch.noConfusion h,
      fun h => ConvBranch.noConfusion h,
      fun h => ConvBranch.noConfusion h,
      fun h => ConvBranch.noConfusion h,
      fun h => ConvBranch.noConfusion h,
      fun h => ConvBranch.noConfusion h,
      fun h => ConvBranch.noConfusion h,
      fun h => ConvBranch.noConfusion h,
      fun _ => h12,
      fun h => ConvBranch.noConfusion h,
      fun h => ConvBranch.noConfusion h,
      fun h => ConvBranch.noConfusion h,
      fun h => ConvBranch.noConfusion h⟩
  rw [if_neg h12]
  by_cases h13 : val.isLoadV = true ∧ val.typeOfV.isAggregateType = true ∧ ce = false
  · rw [if_pos h13]
    exact ⟨fun h => ConvBranch.noConfusion h,
      fun h => ConvBranch.noConfusion h,
      fun h => ConvBranch.noConfusion h,
      fun h => ConvBranch.noConfusion h,
      fun h => ConvBranch.noConfusion h,
      fun h => ConvBranch.noConfusion h,
      fun h => ConvBranch.noConfusion h,
      fun h => ConvBranch.noConfusion h,
      fun h => ConvBranch.noConfusion h,
      fun h => ConvBranch.noConfusion h,
      fun h => ConvBranch.noConfusion h,
      fun h => ConvBranch.noConfusion h,
      fun _ => h13,
      fun h => ConvBranch.noConfusion h,
      fun h => ConvBranch.noConfusion h,
      fun h => ConvBranch.noConfusion h⟩
  rw [if_neg h13]
  by_cases h14 : val.typeOfV.isAggregateType = true
  · rw [if_pos h14]
    exact ⟨fun h => ConvBranch.noConfusion h,
      fun h => ConvBranch.noConfusion h,
      fun h => ConvBranch.noConfusion h,
      fun h => ConvBranch.noConfusion h,
      fun h => ConvBranch.noConfusion h,
      fun h => ConvBranch.noConfusion h,
      fun h => ConvBranch.noConfusion h,
      fun h => ConvBranch.noConfusion h,
      fun h => ConvBranch.noConfusion h,
      fun h => ConvBranch.noConfusion h,
      fun h => ConvBranch.noConfusion h,
      fun h => ConvBranch.noConfusion h,
      fun h => ConvBranch.noConfusion h,
      fun _ => h14,
      fun h => ConvBranch.noConfusion h,
      fun h => ConvBranch.noConfusion h⟩
  rw [if_neg h14]
  by_cases h15 : type.isCompositeTy = true
  · rw [if_pos h15]
    exact ⟨fun h => ConvBranch.noConfusion h,
      fun h => ConvBranch.noConfusion h,
      fun h => ConvBranch.noConfusion h,
      fun h => ConvBranch.noConfusion h,
      fun h => ConvBranch.noConfusion h,
      fun h => ConvBranch.noConfusion h,
      fun h => ConvBranch.noConfusion h,
      fun h => ConvBranch.noConfusion h,
      fun h => ConvBranch.noConfusion h,
      fun h => ConvBranch.noConfusion h,
      fun h => ConvBranch.noConfusion h,
      fun h => ConvBranch.noConfusion h,
      fun h => ConvBranch.noConfusion h,
      fun h => ConvBranch.noConfusion h,
      fun _ => h15,
      fun h => ConvBranch.noConfusion h⟩
  rw [if_neg h15]
  exact ⟨fun h => ConvBranch.noConfusion h,
    fun h => ConvBranch.noConfusion h,
    fun h => ConvBranch.noConfusion h,
    fun h => ConvBranch.noConfusion h,
    fun h => ConvBranch.noConfusion h,
    fun h => ConvBranch.noConfusion h,
    fun h => ConvBranch.noConfusion h,
    fun h => ConvBranch.noConfusion h,
    fun h => ConvBranch.noConfusion h,
    fun h => ConvBranch.noConfusion h,
    fun h => ConvBranch.noConfusion h,
    fun h => ConvBranch.noConfusion h,
    fun h => ConvBranch.noConfusion h,
    fun h => ConvBranch.noConfusion h,
    fun h => ConvBranch.noConfusion h,
    fun h => ConvBranch.noConfusion h⟩

theorem convBranch_elim_retNullB (val : Value) (type : Typ) (b a : Option Nat) (ce : Bool) :
    convBranch val type b a ce = .retNullB → (ce = false ∧ b = none ∧ a = none) :=
  (convBranch_inv val type b a ce).1

theorem convBranch_elim_assertConstB (val : Value) (type : Typ) (b a : Option Nat) (ce : Bool) :
    convBranch val type b a ce = .assertConstB → (ce = true ∧ val.asConst = none) :=
  (convBranch_inv val type b a ce).2.1

theorem convBranch_elim_identityB (val : Value) (type : Typ) (b a : Option Nat) (ce : Bool) :
    convBranch val type b a ce = .identityB → (val.typeOfV = type) :=
  (convBranch_inv val type b a ce).2.2.1

theorem convBranch_elim_ptrPtrB (val : Value) (type : Typ) (b a : Option Nat) (ce : Bool) :
    convBranch val type b a ce = .ptrPtrB → (val.typeOfV.isPointerTy = true ∧ type.isPointerTy = true) :=
  (convBranch_inv val type b a ce).2.2.2.1

theorem convBranch_elim_ptrIntB (val : Value) (type : Typ) (b a : Option Nat) (ce : Bool) :
    convBranch val type b a ce = .ptrIntB → (val.typeOfV.isPointerTy = true ∧ type.isIntegerTy = true) :=
  (convBranch_inv val type b a ce).2.2.2.2.1

theorem convBranch_elim_intPtrB (val : Value) (type : Typ) (b a : Option Nat) (ce : Bool) :
    convBranch val type b a ce = .intPtrB → (val.typeOfV.isIntegerTy = true ∧ type.isPointerTy = true) :=
  (convBranch_inv val type b a ce).2.2.2.2.2.1

theorem convBranch_elim_intIntB (val : Value) (type : Typ) (b a : Option Nat) (ce : Bool) :
    convBranch val type b a ce = .intIntB → (val.typeOfV.isIntegerTy = true ∧ type.isIntegerTy = true) :=
  (convBranch_inv val type b a ce).2.2.2.2.2.2.1

theorem convBranch_elim_intFpB (val : Value) (type : Typ) (b a : Option Nat) (ce : Bool) :
    convBranch val type b a ce = .intFpB → (val.typeOfV.isIntegerTy = true ∧ type.isFloatingPointTy = true) :=
  (convBranch_inv val type b a ce).2.2.2.2.2.2.2.1

theorem convBranch_elim_ptrFpB (val : Value) (type : Typ) (b a : Option Nat) (ce : Bool) :
    convBranch val type b a ce = .ptrFpB → (val.typeOfV.isPointerTy = true ∧ type.isFloatingPointTy = true) :=
  (convBranch_inv val type b a ce).2.2.2.2.2.2.2.2.1

theorem convBranch_elim_fpIntB (val : Value) (type : Typ) (b a : Option Nat) (ce : Bool) :
    convBranch val type b a ce = .fpIntB → (val.typeOfV.isFloatingPointTy = true ∧ type.isIntegerTy = true) :=
  (convBranch_inv val type b a ce).2.2.2.2.2.2.2.2.2.1

theorem convBranch_elim_fpPtrB (val : Value) (type : Typ) (b a : Option Nat) (ce : Bool) :
    convBranch val type b a ce = .fpPtrB → (val.typeOfV.isFloatingPointTy = true ∧ type.isPointerTy = true) :=
  (convBranch_inv val type b a ce).2.2.2.2.2.2.2.2.2.2.1

theorem convBranch_elim_fpFpB (val : Value) (type : Typ) (b a : Option Nat) (ce : Bool) :
    convBranch val type b a ce = .fpFpB → (val.typeOfV.isFloatingPointTy = true ∧ type.isFloatingPointTy = true) :=
  (convBranch_inv val type b a ce).2.2.2.2.2.2.2.2.2.2.2.1

theorem convBranch_elim_loadAggB (val : Value) (type : Typ) (b a : Option Nat) (ce : Bool) :
    convBranch val type b a ce = .loadAggB → (val.isLoadV = true ∧ val.typeOfV.isAggregateType = true ∧ ce = false) :=
  (convBranch_inv val type b a ce).2.2.2.2.2.2.2.2.2.2.2.2.1

theorem convBranch_elim_aggSrcB (val : Value) (type : Typ) (b a : Option Nat) (ce : Bool) :
    convBranch val type b a ce = .aggSrcB → (val.typeOfV.isAggregateType = true) :=
  (convBranch_inv val type b a ce).2.2.2.2.2.2.2.2.2.2.2.2.2.1

theorem convBranch_elim_compositeDstB (val : Value) (type : Typ) (b a : Option Nat) (ce : Bool) :
    convBranch val type b a ce = .compositeDstB → (type.isCompositeTy = true) :=
  (convBranch_inv val type b a ce).2.2.2.2.2.2.2.2.2.2.2.2.2.2.1

theorem convBranch_elim_identityB_const (val : Value) (type : Typ) (b a : Option Nat) (ce : Bool) :
    convBranch val type b a ce = .identityB → (¬(ce = true ∧ val.asConst = none)) :=
  (convBranch_inv val type b a ce).2.2.2.2.2.2.2.2.2.2.2.2.2.2.2

/-- Any successful conversion produces a value of the requested type. -/
theorem convertToType_ret_type :
    ∀ (fuel : Nat), RecRetType (convertToType fuel) := by
  intro fuel
  induction fuel with
  | zero =>
    intro val type b a ce st v st2 h
    simp [convertToType] at h
  | succ n ih =>
    intro val type b a ce st v st2 h
    simp only [convertToType] at h
    split at h
    all_goals try cases h
    all_goals try exact emitCast_ret_type _ _ _ _ _ _ _ _ _ h
    all_goals try exact convIntToFp_ret_type _ ih _ _ _ _ _ _ _ _ h
    all_goals try exact convPtrToFp_ret_type _ ih _ _ _ _ _ _ _ _ h
    all_goals try exact convFpToInt_ret_type _ ih _ _ _ _ _ _ _ _ h
    all_goals try exact convFpToPtr_ret_type _ ih _ _ _ _ _ _ _ _ h
    all_goals try exact convLoadAgg_ret_type _ ih _ _ _ _ _ _ _ _ h
    all_goals try exact convAggSrc_ret_type _ ih _ _ _ _ _ _ _ _ h
    all_goals try exact convCompositeDst_ret_type _ ih _ _ _ _ _ _ _ _ h
    all_goals (rename_i heq; exact convBranch_elim_identityB _ _ _ _ _ heq)

/-- A value whose `dyn_cast<Constant>` succeeds is that constant. -/
theorem asConst_some_cst (v : Value) (c : Const) : v.asConst = some c → v = .cst c := by
  cases v <;> intro h <;> simp [Value.asConst] at h <;> rw [h]

/-- The property that const-expr-mode conversions return a constant and do
not touch the emission state, as a predicate on a recursive-call argument. -/
def RecPure (rec : ConvRec) : Prop :=
  ∀ (val : Value) (type : Typ) (b a : Option Nat) (st : ConvState) (v : Value)
    (st2 : ConvState),
    rec (some val) (some type) b a true st = .ret v st2 → (∃ c, v = .cst c) ∧ st2 = st

theorem convIntToFp_pure (rec : ConvRec) (hrec : RecPure rec) (val : Value) (type : Typ)
    (b a : Option Nat) (st : ConvState) (v : Value) (st2 : ConvState) :
    convIntToFp rec val type b a true st = .ret v st2 → (∃ c, v = .cst c) ∧ st2 = st := by
  intro h
  unfold convIntToFp at h
  repeat' split at h
  all_goals try cases h
  all_goals try (rename_i hrc; exact ⟨⟨_, rfl⟩, (hrec _ _ _ _ _ _ _ hrc).2⟩)
  all_goals simp_all

theorem convPtrToFp_pure (rec : ConvRec) (hrec : RecPure rec) (val : Value) (type : Typ)
    (b a : Option Nat) (st : ConvState) (v : Value) (st2 : ConvState) :
    convPtrToFp rec val type b a true st = .ret v st2 → (∃ c, v = .cst c) ∧ st2 = st := by
  intro h
  unfold convPtrToFp at h
  repeat' split at h
  all_goals try cases h
  rename_i hrc
  have h1 := hrec _ _ _ _ _ _ _ hrc
  have h2 := hrec _ _ _ _ _ _ _ h
  exact ⟨h2.1, h2.2.trans h1.2⟩

theorem convFpToInt_pure (rec : ConvRec) (hrec : RecPure rec) (val : Value) (type : Typ)
    (b a : Option Nat) (st : ConvState) (v : Value) (st2 : ConvState) :
    convFpToInt rec val type b a true st = .ret v st2 → (∃ c, v = .cst c) ∧ st2 = st := by
  intro h
  unfold convFpToInt at h
  repeat' split at h
  all_goals try cases h
  all_goals try exact emitCast_constExpr _ _ _ _ _ _ _ _ h
  all_goals
    (rename_i hrc
     have h1 := hrec _ _ _ _ _ _ _ hrc
     have h2 := hrec _ _ _ _ _ _ _ h
     exact ⟨h2.1, h2.2.trans h1.2⟩)

theorem convFpToPtr_pure (rec : ConvRec) (hrec : RecPure rec) (val : Value) (type : Typ)
    (b a : Option Nat) (st : ConvState) (v : Value) (st2 : ConvState) :
    convFpToPtr rec val type b a true st = .ret v st2 → (∃ c, v = .cst c) ∧ st2 = st := by
  intro h
  unfold convFpToPtr at h
  repeat' split at h
  all_goals try cases h
  rename_i hrc
  have h1 := hrec _ _ _ _ _ _ _ hrc
  have h2 := hrec _ _ _ _ _ _ _ h
  exact ⟨h2.1, h2.2.trans h1.2⟩

theorem convAggSrc_pure (rec : ConvRec) (hrec : RecPure rec) (val : Value) (type : Typ)
    (b a : Option Nat) (st : ConvState) (v : Value) (st2 : ConvState) :
    convAggSrc rec val type b a true st = .ret v st2 → (∃ c, v = .cst c) ∧ st2 = st := by
  intro h
  unfold convAggSrc at h
  repeat' split at h
  all_goals try cases h
  all_goals try exact hrec _ _ _ _ _ _ _ h
  all_goals simp_all

theorem convCompositeDst_pure (rec : ConvRec) (hrec : RecPure rec) (val : Value) (type : Typ)
    (b a : Option Nat) (st : ConvState) (v : Value) (st2 : ConvState) :
    convCompositeDst rec val type b a true st = .ret v st2 → (∃ c, v = .cst c) ∧ st2 = st := by
  intro h
  unfold convCompositeDst at h
  repeat' split at h
  all_goals try cases h
  all_goals try (rename_i hrc; exact ⟨⟨_, rfl⟩, (hrec _ _ _ _ _ _ _ hrc).2⟩)
  all_goals simp_all

/-- In const-expr mode, a successful conversion yields a constant and leaves
the emission state (and hence the IR) untouched. -/
theorem convertToType_constExpr_pure :
    ∀ (fuel : Nat), RecPure (convertToType fuel) := by
  intro fuel
  induction fuel with
  | zero =>
    intro val type b a st v st2 h
    simp [convertToType] at h
  | succ n ih =>
    intro val type b a st v st2 h
    simp only [convertToType] at h
    split at h
    all_goals try cases h
    all_goals try exact ⟨⟨_, rfl⟩, rfl⟩
    all_goals try exact emitCast_constExpr _ _ _ _ _ _ _ _ h
    all_goals try exact convIntToFp_pure _ ih _ _ _ _ _ _ _ h
    all_goals try exact convPtrToFp_pure _ ih _ _ _ _ _ _ _ h
    all_goals try exact convFpToInt_pure _ ih _ _ _ _ _ _ _ h
    all_goals try exact convFpToPtr_pure _ ih _ _ _ _ _ _ _ h
    all_goals try exact convAggSrc_pure _ ih _ _ _ _ _ _ _ h
    all_goals try exact convCompositeDst_pure _ ih _ _ _ _ _ _ _ h
    all_goals
      rename_i heq
      first
        | exact absurd (convBranch_elim_loadAggB _ _ _ _ _ heq).2.2 (by simp)
        | (have hnc := convBranch_elim_identityB_const _ _ _ _ _ heq
           have hno : val.asConst ≠ none := fun hn => hnc ⟨rfl, hn⟩
           obtain ⟨c, hc⟩ := Option.ne_none_iff_exists.mp hno
           exact ⟨⟨c, asConst_some_cst _ _ hc.symm⟩, rfl⟩)

/-- C4: for every value, target type, and valid insertion point, the
conversion either fails (or returns null) or returns a value whose type
equals the target type; and when the value's type already equals the target,
the value itself is returned with the emission state untouched, so no cast
instruction is inserted. -/
theorem C4_convertToType_contract :
    (∀ (fuel : Nat) (val : Value) (type : Typ) (b a : Option Nat) (ce : Bool)
       (st : ConvState) (v : Value) (st2 : ConvState),
       convertToType fuel (some val) (some type) b a ce st = .ret v st2 →
         v.typeOfV = type) ∧
    (∀ (fuel : Nat) (val : Value) (type : Typ) (b a : Option Nat) (ce : Bool)
       (st : ConvState),
       val.typeOfV = type →
       ¬(ce = false ∧ b = none ∧ a = none) →
       ¬(ce = true ∧ val.asConst = none) →
       convertToType (fuel + 1) (some val) (some type) b a ce st = .ret val st) := by
  constructor
  · exact fun fuel => convertToType_ret_type fuel
  · intro fuel val type b a ce st ht h1 h2
    have hb : convBranch val type b a ce = .identityB := by
      unfold convBranch
      rw [if_neg h1, if_neg h2, if_pos ht]
    simp only [convertToType, hb]

/-- Witness for C4: converting an `i8` value to `i8` returns the value
itself and emits nothing. -/
theorem C4_convertToType_contract_witness :
    convertToType 1 (some (.othV 0 (.int 8))) (some (.int 8)) (some 3) none false ⟨0, []⟩ =
      .ret (.othV 0 (.int 8)) ⟨0, []⟩ :=
  C4_convertToType_contract.2 0 (.othV 0 (.int 8)) (.int 8) (some 3) none false ⟨0, []⟩ rfl
    (by simp) (by simp)

/-- C5: constant-expression-mode conversion either fails or returns a
constant of the requested type, and it never mutates the IR: no instruction
is created and the emission state is returned unchanged. -/
theorem C5_convertConstantToType_const_and_pure :
    (∀ (fuel : Nat) (c : Const) (t : Typ) (r : Const),
       convertConstantToType fuel c t = some r → r.typeOfC = t) ∧
    (∀ (fuel : Nat) (c : Const) (t : Typ) (b a : Option Nat) (st : ConvState)
       (v : Value) (st2 : ConvState),
       convertToType fuel (some (.cst c)) (some t) b a true st = .ret v st2 →
         (∃ cc, v = .cst cc) ∧ st2 = st) := by
  constructor
  · intro fuel c t r h
    unfold convertConstantToType at h
    split at h
    · rename_i v st2 heq
      have ht := convertToType_ret_type fuel _ _ _ _ _ _ _ _ heq
      have hv := asConst_some_cst _ _ h
      subst hv
      simpa [Value.typeOfV] using ht
    · cases h
  · intro fuel
    exact fun c t b a st v st2 h => convertToType_constExpr_pure fuel (.cst c) t b a st v st2 h

/-- Witness for C5: converting the constant `i32 7` to a pointer type yields
the `inttoptr` constant expression of pointer type, with no state change. -/
theorem C5_convertConstantToType_const_and_pure_witness :
    Const.typeOfC (.cexpr .inttoptr (.cint 32 7) (.ptr (.int 8))) = .ptr (.int 8) ∧
    ((⟨5, []⟩ : ConvState) = ⟨5, []⟩) :=
  ⟨C5_convertConstantToType_const_and_pure.1 2 (.cint 32 7) (.ptr (.int 8))
      (.cexpr .inttoptr (.cint 32 7) (.ptr (.int 8))) (by decide),
    (C5_convertConstantToType_const_and_pure.2 2 (.cint 32 7) (.ptr (.int 8)) none none
      ⟨5, []⟩ (.cst (.cexpr .inttoptr (.cint 32 7) (.ptr (.int 8)))) ⟨5, []⟩ (by decide)).2⟩

/-- C10: the live-mode entry points `convertValueToType` and
`convertValueToTypeAfter` return null -- without failing, and without
creating or inserting any instruction (the state is returned unchanged) --
whenever the value is null, the target type is null, or no insertion anchor
is supplied. -/
theorem C10_convert_null_args :
    ∀ (n : Nat) (val : Option Value) (type : Option Typ) (anchor : Option Nat)
      (st : ConvState),
      val = none ∨ type = none ∨ anchor = none →
      convertValueToType (n + 1) val type anchor st = .retNull st ∧
      convertValueToTypeAfter (n + 1) val type anchor st = .retNull st := by
  intro n val type anchor st h
  unfold convertValueToType convertValueToTypeAfter
  rcases h with h | h | h
  · subst h; constructor <;> simp [convertToType]
  · subst h
    cases val with
    | none => constructor <;> simp [convertToType]
    | some v => constructor <;> simp [convertToType]
  · subst h
    cases val with
    | none => constructor <;> simp [convertToType]
    | some v =>
      cases type with
      | none => constructor <;> simp [convertToType]
      | some t =>
        have hb : convBranch v t none none false = .retNullB := by
          unfold convBranch
          rw [if_pos ⟨rfl, rfl, rfl⟩]
        have hb2 : convBranch v t none none false = .retNullB := hb
        constructor <;> simp only [convertToType, hb]

/-- Witness for C10: both entry points return null on a null value. -/
theorem C10_convert_null_args_witness :
    convertValueToType 3 none (some (.int 8)) (some 0) ⟨0, []⟩ = .retNull ⟨0, []⟩ ∧
    convertValueToTypeAfter 3 none (some (.int 8)) (some 0) ⟨0, []⟩ = .retNull ⟨0, []⟩ :=
  C10_convert_null_args 2 none (some (.int 8)) (some 0) ⟨0, []⟩ (Or.inl rfl)

/-- Shape facts for an integer type: it is classified as nothing else. -/
theorem isIntegerTy_shape (t : Typ) (h : t.isIntegerTy = true) :
    t.isPointerTy = false ∧ t.isFloatingPointTy = false ∧ t.isAggregateType = false ∧
      t.isCompositeTy = false := by
  cases t <;> simp_all [Typ.isIntegerTy, Typ.isPointerTy, Typ.isFloatingPointTy,
    Typ.isAggregateType, Typ.isCompositeTy]

/-- Shape facts for a floating-point type. -/
theorem isFloatingPointTy_shape (t : Typ) (h : t.isFloatingPointTy = true) :
    t.isPointerTy = false ∧ t.isIntegerTy = false ∧ t.isAggregateType = false ∧
      t.isCompositeTy = false := by
  cases t <;> simp_all [Typ.isIntegerTy, Typ.isPointerTy, Typ.isFloatingPointTy,
    Typ.isAggregateType, Typ.isCompositeTy]

/-- An integer-to-integer conversion between different widths that succeeds
returns precisely a signed integer cast of the operand: a fresh
`CreateIntegerCast` instruction in live mode, the `getIntegerCast` constant
expression in const-expr mode. -/
theorem convert_intInt_cast_shape :
    ∀ (k : Nat) (m : Value) (w : Nat) (b a : Option Nat) (ce : Bool) (st1 : ConvState)
      (v : Value) (st2 : ConvState),
      m.typeOfV.isIntegerTy = true → m.typeOfV ≠ .int w →
      convertToType k (some m) (some (.int w)) b a ce st1 = .ret v st2 →
      (∃ i, v = .castV i .intcast m (.int w)) ∨
        (∃ cm, m = .cst cm ∧ v = .cst (.cexpr .intcast cm (.int w))) := by
  intro k m w b a ce st1 v st2 hm hne h
  obtain ⟨hp, hf, hag, hcp⟩ := isIntegerTy_shape _ hm
  cases k with
  | zero => simp [convertToType] at h
  | succ n =>
    simp only [convertToType] at h
    split at h
    all_goals try cases h
    all_goals rename_i heq
    all_goals try (exact absurd (convBranch_elim_identityB _ _ _ _ _ heq) hne)
    all_goals try (
      unfold emitCast at h
      split at h
      · split at h
        · cases h
          rename_i hc
          exact Or.inr ⟨_, asConst_some_cst _ _ hc, rfl⟩
        · cases h
      · split at h
        · cases h; exact Or.inl ⟨_, rfl⟩
        · cases h)
    all_goals try (have hg := convBranch_elim_ptrPtrB _ _ _ _ _ heq; simp [hp] at hg)
    all_goals try (have hg := convBranch_elim_ptrIntB _ _ _ _ _ heq; simp [hp] at hg)
    all_goals try (have hg := convBranch_elim_intPtrB _ _ _ _ _ heq
                   simp [Typ.isPointerTy] at hg)
    all_goals try (have hg := convBranch_elim_intFpB _ _ _ _ _ heq
                   simp [Typ.isFloatingPointTy] at hg)
    all_goals try (have hg := convBranch_elim_ptrFpB _ _ _ _ _ heq; simp [hp] at hg)
    all_goals try (have hg := convBranch_elim_fpIntB _ _ _ _ _ heq; simp [hf] at hg)
    all_goals try (have hg := convBranch_elim_fpPtrB _ _ _ _ _ heq; simp [hf] at hg)
    all_goals try (have hg := convBranch_elim_fpFpB _ _ _ _ _ heq; simp [hf] at hg)
    all_goals try (have hg := convBranch_elim_loadAggB _ _ _ _ _ heq; simp [hag] at hg)
    all_goals try (have hg := convBranch_elim_aggSrcB _ _ _ _ _ heq; simp [hag] at hg)
    all_goals try (have hg := convBranch_elim_compositeDstB _ _ _ _ _ heq
                   simp [Typ.isCompositeTy] at hg)

/-- A conversion from a float of width `w` to the integer of the same
supported width that succeeds returns precisely a bit-cast of the operand. -/
theorem convert_fpInt_bitcast_shape :
    ∀ (k : Nat) (m : Value) (w : Nat) (b a : Option Nat) (ce : Bool) (st1 : ConvState)
      (v : Value) (st2 : ConvState),
      m.typeOfV = .fp w → (w = 16 ∨ w = 32 ∨ w = 64 ∨ w = 80) →
      convertToType k (some m) (some (.int w)) b a ce st1 = .ret v st2 →
      (∃ i, v = .castV i .bitcast m (.int w)) ∨
        (∃ cm, m = .cst cm ∧ v = .cst (.cexpr .bitcast cm (.int w))) := by
  intro k m w b a ce st1 v st2 hm hw h
  have hfp : m.typeOfV.isFloatingPointTy = true := by rw [hm]; rfl
  obtain ⟨hp, hi, hag, hcp⟩ := isFloatingPointTy_shape _ hfp
  cases k with
  | zero => simp [convertToType] at h
  | succ n =>
    simp only [convertToType] at h
    split at h
    all_goals try cases h
    all_goals rename_i heq
    all_goals try (have hid := convBranch_elim_identityB _ _ _ _ _ heq
                   rw [hm] at hid; cases hid)
    all_goals try (
      -- the fpIntB branch: same width, so the guard against the matching
      -- float type fails and a direct bit-cast is emitted
      unfold convFpToInt at h
      rw [if_pos (by simpa [Typ.primSizeInBits] using hw)] at h
      rw [if_neg (by simp [Typ.primSizeInBits, hm])] at h
      unfold emitCast at h
      split at h
      · split at h
        · cases h
          rename_i hc
          exact Or.inr ⟨_, asConst_some_cst _ _ hc, rfl⟩
        · cases h
      · split at h
        · cases h; exact Or.inl ⟨_, rfl⟩
        · cases h)
    all_goals try (have hg := convBranch_elim_ptrPtrB _ _ _ _ _ heq; simp [hp] at hg)
    all_goals try (have hg := convBranch_elim_ptrIntB _ _ _ _ _ heq; simp [hp] at hg)
    all_goals try (have hg := convBranch_elim_intPtrB _ _ _ _ _ heq; simp [hi] at hg)
    all_goals try (have hg := convBranch_elim_intIntB _ _ _ _ _ heq; simp [hi] at hg)
    all_goals try (have hg := convBranch_elim_intFpB _ _ _ _ _ heq; simp [hi] at hg)
    all_goals try (have hg := convBranch_elim_ptrFpB _ _ _ _ _ heq; simp [hp] at hg)
    all_goals try (have hg := convBranch_elim_fpPtrB _ _ _ _ _ heq
                   simp [Typ.isPointerTy] at hg)
    all_goals try (have hg := convBranch_elim_fpFpB _ _ _ _ _ heq
                   simp [Typ.isFloatingPointTy] at hg)
    all_goals try (have hg := convBranch_elim_loadAggB _ _ _ _ _ heq; simp [hag] at hg)
    all_goals try (have hg := convBranch_elim_aggSrcB _ _ _ _ _ heq; simp [hag] at hg)
    all_goals try (have hg := convBranch_elim_compositeDstB _ _ _ _ _ heq
                   simp [Typ.isCompositeTy] at hg)

/-- Forward lemma: with a floating-point source and integer target (and
neither of the two early guards firing), the ladder selects the
float-to-integer branch. -/
theorem convBranch_fpInt_fires (val : Value) (w0 w : Nat) (b a : Option Nat) (ce : Bool)
    (hv : val.typeOfV = .fp w0)
    (h1 : ¬(ce = false ∧ b = none ∧ a = none))
    (h2 : ¬(ce = true ∧ val.asConst = none)) :
    convBranch val (.int w) b a ce = .fpIntB := by
  unfold convBranch
  rw [if_neg h1, if_neg h2]
  rw [if_neg (show ¬val.typeOfV = Typ.int w by rw [hv]; intro hx; cases hx)]
  simp [hv, Typ.isPointerTy, Typ.isIntegerTy, Typ.isFloatingPointTy]

/-- C8: float-to-integer conversion. For a target integer width outside
16/32/64/80 the conversion routes through `i32` (first conjunct) and the
second leg of such a route is precisely a signed integer cast (second
conjunct). For widths 16/32/64/80 the value is first brought to the float
type of matching width (third and fourth conjuncts) and the leg from a float
of width `w` to `i(w)` is precisely a bit-cast (fifth conjunct). -/
theorem C8_float_to_int_routing :
    (∀ (fuel : Nat) (val : Value) (w0 w : Nat) (b a : Option Nat) (ce : Bool)
       (st : ConvState),
       val.typeOfV = .fp w0 →
       ¬(ce = false ∧ b = none ∧ a = none) →
       ¬(ce = true ∧ val.asConst = none) →
       ¬(w = 16 ∨ w = 32 ∨ w = 64 ∨ w = 80) →
       convertToType (fuel + 1) (some val) (some (.int w)) b a ce st =
         (match convertToType fuel (some val) (some (.int 32)) b a ce st with
          | .ret m st1 => convertToType fuel (some m) (some (.int w)) b m.asInstId ce st1
          | _ => .fail)) ∧
    (∀ (k : Nat) (m : Value) (w : Nat) (b a : Option Nat) (ce : Bool) (st1 : ConvState)
       (v : Value) (st2 : ConvState),
       m.typeOfV = .int 32 → w ≠ 32 →
       convertToType k (some m) (some (.int w)) b a ce st1 = .ret v st2 →
       (∃ i, v = .castV i .intcast m (.int w)) ∨
         (∃ cm, m = .cst cm ∧ v = .cst (.cexpr .intcast cm (.int w)))) ∧
    (∀ (fuel : Nat) (val : Value) (w0 w : Nat) (b a : Option Nat) (ce : Bool)
       (st : ConvState),
       val.typeOfV = .fp w0 →
       ¬(ce = false ∧ b = none ∧ a = none) →
       ¬(ce = true ∧ val.asConst = none) →
       (w = 16 ∨ w = 32 ∨ w = 64 ∨ w = 80) → w0 ≠ w →
       convertToType (fuel + 1) (some val) (some (.int w)) b a ce st =
         (match convertToType fuel (some val) (some (.fp w)) b a ce st with
          | .ret m st1 => convertToType fuel (some m) (some (.int w)) b m.asInstId ce st1
          | _ => .fail)) ∧
    (∀ (fuel : Nat) (val : Value) (w : Nat) (b a : Option Nat) (ce : Bool)
       (st : ConvState),
       val.typeOfV = .fp w →
       ¬(ce = false ∧ b = none ∧ a = none) →
       ¬(ce = true ∧ val.asConst = none) →
       (w = 16 ∨ w = 32 ∨ w = 64 ∨ w = 80) →
       convertToType (fuel + 1) (some val) (some (.int w)) b a ce st =
         emitCast .bitcast val (.int w) b a ce st) ∧
    (∀ (k : Nat) (m : Value) (w : Nat) (b a : Option Nat) (ce : Bool) (st1 : ConvState)
       (v : Value) (st2 : ConvState),
       m.typeOfV = .fp w → (w = 16 ∨ w = 32 ∨ w = 64 ∨ w = 80) →
       convertToType k (some m) (some (.int w)) b a ce st1 = .ret v st2 →
       (∃ i, v = .castV i .bitcast m (.int w)) ∨
         (∃ cm, m = .cst cm ∧ v = .cst (.cexpr .bitcast cm (.int w)))) := by
  refine ⟨?_, ?_, ?_, ?_, ?_⟩
  · intro fuel val w0 w b a ce st hv h1 h2 hbad
    simp only [convertToType, convBranch_fpInt_fires val w0 w b a ce hv h1 h2]
    unfold convFpToInt
    rw [if_neg (by simpa [Typ.primSizeInBits] using hbad)]
  · intro k m w b a ce st1 v st2 hm hw h
    exact convert_intInt_cast_shape k m w b a ce st1 v st2 (by rw [hm]; rfl)
      (by rw [hm]; intro hx; cases hx; exact hw rfl) h
  · intro fuel val w0 w b a ce st hv h1 h2 hw hne
    simp only [convertToType, convBranch_fpInt_fires val w0 w b a ce hv h1 h2]
    unfold convFpToInt
    rw [if_pos (by simpa [Typ.primSizeInBits] using hw)]
    rw [if_pos (show val.typeOfV ≠ Typ.fp (Typ.primSizeInBits (.int w)) by
      simp [Typ.primSizeInBits, hv]
      intro hx
      exact hne hx)]
    rfl
  · intro fuel val w b a ce st hv h1 h2 hw
    simp only [convertToType, convBranch_fpInt_fires val w w b a ce hv h1 h2]
    unfold convFpToInt
    rw [if_pos (by simpa [Typ.primSizeInBits] using hw)]
    rw [if_neg (show ¬val.typeOfV ≠ Typ.fp (Typ.primSizeInBits (.int w)) by
      simp [Typ.primSizeInBits, hv])]
  · intro k m w b a ce st1 v st2 hm hw h
    exact convert_fpInt_bitcast_shape k m w b a ce st1 v st2 hm hw h

/-- Witness for C8: a double converted to `i24` routes through `i32`, and
the concrete run produces exactly fpcast-to-float, bitcast-to-i32, then an
integer cast to `i24`. -/
theorem C8_float_to_int_routing_witness :
    convertToType 9 (some (.othV 0 (.fp 64))) (some (.int 24)) (some 7) none false ⟨1, []⟩ =
      (match convertToType 8 (some (.othV 0 (.fp 64))) (some (.int 32)) (some 7) none false
          ⟨1, []⟩ with
       | .ret m st1 => convertToType 8 (some m) (some (.int 24)) (some 7) m.asInstId false st1
       | _ => .fail) :=
  C8_float_to_int_routing.1 8 (.othV 0 (.fp 64)) 64 24 (some 7) none false ⟨1, []⟩ rfl
    (by simp) (by simp) (by decide)

example :
    convertToType 9 (some (.othV 0 (.fp 64))) (some (.int 24)) (some 7) none false ⟨1, []⟩ =
      .ret (.castV 3 .intcast (.castV 2 .bitcast (.castV 1 .fpcast (.othV 0 (.fp 64)) (.fp 32))
          (.int 32)) (.int 24))
        ⟨4, [(.castV 1 .fpcast (.othV 0 (.fp 64)) (.fp 32), .before 7),
             (.castV 2 .bitcast (.castV 1 .fpcast (.othV 0 (.fp 64)) (.fp 32)) (.int 32),
               .before 7),
             (.castV 3 .intcast (.castV 2 .bitcast (.castV 1 .fpcast (.othV 0 (.fp 64)) (.fp 32))
               (.int 32)) (.int 24), .before 7)]⟩ := by
  decide

/-- An IR global variable: id (pointer identity), name, content type (the
value type is `ptr contentTy`), optional initializer, constness. -/
structure GVar where
  id : Nat
  name : String
  contentTy : Typ
  ini : Option Const
  isConst : Bool
deriving DecidableEq, Repr

/-- The module: its list of global variables, in creation order. -/
structure LlvmModule where
  globals : List GVar
deriving DecidableEq, Repr

/-- Find a global by id. -/
def LlvmModule.findGV (m : LlvmModule) (i : Nat) : Option GVar :=
  m.globals.find? (fun g => g.id == i)

/-- Modelled from the spec: one ConfigStore object mirroring a global
(symbolic name, type string, debug/crypto metadata). -/
structure CGlobal where
  gvId : Nat
  name : String
  ty : Option Typ
  fromDebug : Bool
  realName : String
  cryptoDesc : String
deriving DecidableEq, Repr

/-- Modelled from the spec: a crypto-pattern annotation at an address. -/
structure CryptoPat where
  name : String
  desc : String
  ty : Typ
deriving DecidableEq, Repr

/-- Modelled from the spec: the ConfigStore -- globals keyed by binary
address, known function addresses, stack slots keyed by (function, offset),
crypto patterns, and the architecture flags the creation heuristic reads. -/
structure Config where
  globals : List (Nat × CGlobal)
  funcAddrs : List Nat
  stackVars : List ((Nat × Int) × Nat)
  crypto : List (Nat × CryptoPat)
  armOrThumb : Bool
  pic32 : Bool
deriving DecidableEq, Repr

/-- First entry registered at an address. -/
def lookupA {α : Type} (l : List (Nat × α)) (addr : Nat) : Option α :=
  (l.find? (fun p => p.1 == addr)).map (fun p => p.2)

/-- Modelled from the spec: one debug-info global (name and parsed type). -/
structure DebugGVar where
  name : String
  ty : Option Typ
deriving DecidableEq, Repr

/-- Modelled from the spec: the debug-format file, globals keyed by address. -/
structure DebugFormat where
  globals : List (Nat × DebugGVar)
deriving DecidableEq, Repr

/-- Modelled from the spec: the read-only view over the loaded object file.
`getConstantTyped` is `FileImage::getConstant(type, addr, wideString)`;
`getConstantSpecial` is `FileImage::getConstant(config, dbgf, addr)`, the
reader that materializes a constant of an inferred type at an address and may
reference other globals of the module (that is how initializer cycles arise). -/
structure FileImage where
  hasDataOnAddress : Nat → Bool
  hasReadOnlyDataOnAddress : Nat → Bool
  isCodeSegAt : Nat → Bool
  niceNTBSAt : Nat → Bool
  getWord : Nat → Option Nat
  bytesPerWord : Nat
  getConstantTyped : Typ → Option Nat → Bool → Option Const
  getConstantSpecial : Nat → Option Const

/-- State of module, config and the id counter for fresh globals. -/
structure GState where
  mod : LlvmModule
  cfg : Config
  next : Nat
deriving DecidableEq, Repr

/-- LLVM renames a new global when its name is taken; the model appends a
suffix in that case (collisions of the fallback name itself do not occur in
the flows verified here). -/
def uniqName (m : LlvmModule) (n : String) : String :=
  if m.globals.all (fun g => g.name ≠ n) then n
  else n ++ "." ++ toString m.globals.length

/-- `new GlobalVariable(module, ...)`: create with a fresh id and append. -/
def pushGV (st : GState) (name : String) (contentTy : Typ) (isConst : Bool)
    (ini : Option Const) : GVar × GState :=
  let g : GVar := ⟨st.next, uniqName st.mod name, contentTy, ini, isConst⟩
  (g, { st with mod := ⟨st.mod.globals ++ [g]⟩, next := st.next + 1 })

/-- Modelled from the spec: `Config::getLlvmGlobalVariable(name, addr)` --
the ConfigStore is keyed by binary address; return the IR global registered
at the address when both the entry and the IR object exist. The name is part
of the source signature but the store is address-keyed. -/
def getLlvmGlobalVariable (m : LlvmModule) (cfg : Config) (_nm : String) (ad : Nat) :
    Option GVar :=
  match lookupA cfg.globals ad with
  | some cg => m.findGV cg.gvId
  | none => none

/-- Modelled from the spec: `Config::insertGlobalVariable` -- register the IR
global under its address, replacing any previous entry at that address. -/
def insertGlobalVariableCfg (st : GState) (ad : Nat) (gv : GVar) (fromDebug : Bool)
    (realName : String) (cryptoDesc : String) : GState :=
  let entry : CGlobal := ⟨gv.id, gv.name, some gv.contentTy, fromDebug, realName, cryptoDesc⟩
  let gl := (ad, entry) :: st.cfg.globals.filter (fun p => p.1 ≠ ad)
  { st with cfg := { st.cfg with globals := gl } }

/-- Modelled from the spec: the name is salted with the hex form of the
address (`retdec::utils::appendHex`). -/
def appendHex (n : String) (a : Nat) : String :=
  n ++ "_" ++ String.mk (Nat.toDigits 16 a)

mutual
/-- `replaceAllUsesWith` on the constant level: substitute every reference to
the global `oldId` by `repl` inside a constant. -/
def csubst (oldId : Nat) (repl : Const) : Const → Const
  | .cint w v => .cint w v
  | .undefC t => .undefC t
  | .gref g t => if g = oldId then repl else .gref g t
  | .cexpr k c t => .cexpr k (csubst oldId repl c) t
  | .cextr c t => .cextr (csubst oldId repl c) t
  | .cins ag v t => .cins (csubst oldId repl ag) (csubst oldId repl v) t
  | .cstruct t fs => .cstruct t (csubstList oldId repl fs)
def csubstList (oldId : Nat) (repl : Const) : List Const → List Const
  | [] => []
  | c :: cs => csubst oldId repl c :: csubstList oldId repl cs
end

/-- `gv->replaceAllUsesWith(conv)`: rewrite every initializer in the module. -/
def rauwGV (st : GState) (oldId : Nat) (conv : Const) : GState :=
  { st with mod := ⟨st.mod.globals.map (fun g => { g with ini := g.ini.map (csubst oldId conv) })⟩ }

/-- `gv->eraseFromParent()`. -/
def eraseGV (st : GState) (gid : Nat) : GState :=
  { st with mod := ⟨st.mod.globals.filter (fun g => g.id ≠ gid)⟩ }

/-- Is this constant precisely a reference to the given global (`c == gv`)? -/
def constIsGVRef (c : Const) (gid : Nat) : Bool :=
  match c with
  | .gref g _ => g == gid
  | _ => false

/-- The `while (cgv)` loop of `detectGlobalVariableInitializerCycle`: follow
initializers that are themselves plain global references, looking for the
global under construction. The C++ loop terminates only on acyclic chains;
the model bounds it by the number of globals plus one, which covers every
chain of distinct globals. -/
def followInitChain (m : LlvmModule) (gvId : Nat) : Nat → Option Nat → Bool
  | 0, _ => false
  | _, none => false
  | k + 1, some cur =>
    if cur = gvId then true
    else
      match m.findGV cur with
      | some g =>
        match g.ini with
        | some (.gref nxt _) => followInitChain m gvId k (some nxt)
        | _ => false
      | none => false

/-- `detectGlobalVariableInitializerCycle`: `nullptr` when the constant is
null or the address undefined; the word-sized constant read at the address
when the constant is the global itself or a chain of global references
reaches it; the constant unchanged otherwise. -/
def detectGlobalVariableInitializerCycle (m : LlvmModule) (defTy : Typ) (objf : FileImage)
    (gv : GVar) (c : Option Const) (addr : Option Nat) : Option Const :=
  match c, addr with
  | none, _ => none
  | _, none => none
  | some c0, some ad =>
    if constIsGVRef c0 gv.id then objf.getConstantTyped defTy (some ad) false
    else
      match c0 with
      | .gref g _ =>
        if followInitChain m gv.id (m.globals.length + 1) (some g) then
          objf.getConstantTyped defTy (some ad) false
        else some c0
      | _ => some c0

/-- Does a word-sized read at the address yield a value that itself
addresses data? -/
def wordPointsToData (objf : FileImage) (ad : Nat) : Bool :=
  match objf.getWord ad with
  | some v => objf.hasDataOnAddress v
  | none => false

/-- `globalVariableCanBeCreated`: the heuristic deciding whether a global may
be synthesized at the address. -/
def globalVariableCanBeCreated (cfg : Config) (objf : FileImage) (addr : Option Nat)
    (strict : Bool) : Bool :=
  match addr with
  | none => false
  | some ad =>
    if !objf.hasDataOnAddress ad then false
    else if (cfg.funcAddrs.contains ad || objf.isCodeSegAt ad) && !objf.niceNTBSAt ad then
      wordPointsToData objf ad ||
        wordPointsToData objf (ad + objf.bytesPerWord) ||
        wordPointsToData objf (ad - objf.bytesPerWord) ||
        ((cfg.armOrThumb || cfg.pic32) && !strict)
    else true

/-- The candidate initializer, type, names and debug flag accumulated by the
debug-info / existing-config / crypto-pattern stages of `getGlobalVariable`. -/
structure GCand where
  c : Option Const
  t : Typ
  nm : String
  rnm : String
  fromDbg : Bool
deriving DecidableEq, Repr

/-- The debug-info, existing-config-entry and crypto-pattern stages of
`getGlobalVariable`, each overriding type, initializer and name in source
order. -/
def ggvStages (objf : FileImage) (dbgf : Option DebugFormat) (defTy : Typ) (cfg : Config)
    (ad : Nat) (name1 : String) : GCand :=
  let s0 : GCand := ⟨none, defTy, name1, "", false⟩
  let s1 :=
    match dbgf.bind (fun d => lookupA d.globals ad) with
    | some dg =>
      let t := dg.ty.getD defTy
      (⟨objf.getConstantTyped t (some ad) false, t, dg.name, dg.name, true⟩ : GCand)
    | none => s0
  let s2 :=
    match lookupA cfg.globals ad with
    | some cg =>
      let t := cg.ty.getD s1.t
      (⟨objf.getConstantTyped t (some ad) false, t, cg.name, cg.name, true⟩ : GCand)
    | none => s1
  match lookupA cfg.crypto ad with
  | some cp =>
    if !s2.fromDbg then ⟨objf.getConstantTyped cp.ty (some ad) false, cp.ty, cp.name, cp.name, true⟩
    else s2
  | none => s2

/-- The creation tail of `getGlobalVariable`: build the global, and when no
initializer was found try the special reader, break cycles, and either keep
the config entry with a null result or rebuild the global around the read
constant. `none` models an assertion failure inside the constant
conversion. -/
def ggvCreate (fuel : Nat) (objf : FileImage) (defTy : Typ) (st : GState) (ad : Nat)
    (cand : GCand) (isConst : Bool) (cryptoDesc : String) : Option (Option Nat × GState) :=
  let r1 := pushGV st cand.nm cand.t isConst cand.c
  let gv := r1.1
  let stA := r1.2
  match cand.c with
  | some _ =>
    some (some gv.id, insertGlobalVariableCfg stA ad gv cand.fromDbg cand.rnm cryptoDesc)
  | none =>
    let c2 := objf.getConstantSpecial ad
    match detectGlobalVariableInitializerCycle stA.mod defTy objf gv c2 (some ad) with
    | none =>
      some (none, insertGlobalVariableCfg stA ad gv cand.fromDbg cand.rnm cryptoDesc)
    | some c4 =>
      let r2 := pushGV stA cand.nm c4.typeOfC isConst (some c4)
      let ngv := r2.1
      let stB := r2.2
      match convertConstantToType fuel (.gref ngv.id (.ptr ngv.contentTy))
          (.ptr gv.contentTy) with
      | some conv =>
        let stC :=
          if conv ≠ .gref ngv.id (.ptr ngv.contentTy) then rauwGV stB gv.id conv else stB
        let stD := eraseGV stC gv.id
        some (some ngv.id, insertGlobalVariableCfg stD ad ngv cand.fromDbg cand.rnm cryptoDesc)
      | none => none

/-- `IrModifier::getGlobalVariable`: guard with the creation heuristic, salt
the name with the address, return an already-registered global, otherwise run
the override stages and the creation tail. -/
def getGlobalVariable (fuel : Nat) (objf : FileImage) (dbgf : Option DebugFormat)
    (defTy : Typ) (st : GState) (addr : Option Nat) (strict : Bool) (name : String) :
    Option (Option Nat × GState) :=
  if !globalVariableCanBeCreated st.cfg objf addr strict then some (none, st)
  else
    match addr with
    | none => some (none, st)
    | some ad =>
      let name1 := appendHex name ad
      match getLlvmGlobalVariable st.mod st.cfg name1 ad with
      | some g => some (some g.id, st)
      | none =>
        let cryptoDesc :=
          match lookupA st.cfg.crypto ad with
          | some cp => cp.desc
          | none => ""
        ggvCreate fuel objf defTy st ad (ggvStages objf dbgf defTy st.cfg ad name1)
          (objf.hasReadOnlyDataOnAddress ad) cryptoDesc

mutual
/-- The global ids referenced (directly, at any nesting depth) by a constant. -/
def crefs : Const → List Nat
  | .cint _ _ => []
  | .undefC _ => []
  | .gref g _ => [g]
  | .cexpr _ c _ => crefs c
  | .cextr c _ => crefs c
  | .cins a v _ => crefs a ++ crefs v
  | .cstruct _ fs => crefsList fs
def crefsList : List Const → List Nat
  | [] => []
  | c :: cs => crefs c ++ crefsList cs
end

/-- Does some global of the module reference itself from its own
initializer? -/
def moduleHasDirectSelfRef (m : LlvmModule) : Bool :=
  m.globals.any (fun g =>
    match g.ini with
    | some c => (crefs c).contains g.id
    | none => false)

/-- A minimal image with data at address 100 and no readable constants. -/
def imgC2 : FileImage where
  hasDataOnAddress := fun a => a == 100
  hasReadOnlyDataOnAddress := fun _ => false
  isCodeSegAt := fun _ => false
  niceNTBSAt := fun _ => false
  getWord := fun _ => none
  bytesPerWord := 4
  getConstantTyped := fun _ _ _ => none
  getConstantSpecial := fun _ => none

/-- Empty config. -/
def cfg0 : Config := ⟨[], [], [], [], false, false⟩

/-- Empty initial state. -/
def st0 : GState := ⟨⟨[]⟩, cfg0, 0⟩

/-- An image whose special constant reader materializes, at address 100, a
struct constant containing a pointer back to the global being built there
(id 0 is the id the next created global receives in `st0`) -- the
aggregate-mediated initializer cycle the source's chain walk cannot see. -/
def imgC3 : FileImage where
  hasDataOnAddress := fun a => a == 100
  hasReadOnlyDataOnAddress := fun _ => false
  isCodeSegAt := fun _ => false
  niceNTBSAt := fun _ => false
  getWord := fun _ => none
  bytesPerWord := 4
  getConstantTyped := fun _ _ _ => none
  getConstantSpecial := fun a =>
    if a == 100 then some (.cstruct (.strct [.ptr (.int 32)]) [.gref 0 (.ptr (.int 32))])
    else none

/-- C2 counterexample: at an address that passes the creation check but where
no initializer constant can be read, `getGlobalVariable` returns null and
inserts a ConfigStore entry, but the partially built IR global is NOT
discarded -- it remains in the module (id 0 below), contradicting the claim. -/
theorem C2_counterexample :
    (getGlobalVariable 9 imgC2 none (.int 32) st0 (some 100) false "g").map
        (fun r => (r.1, r.2.mod.globals.map GVar.id, (lookupA r.2.cfg.globals 100).isSome)) =
      some (none, [0], true) := by
  decide

/-- C6 counterexample: after a first call that returns null (initializer
unreadable), the very same call returns the registered global, so repeated
calls do not return the same result. -/
theorem C6_counterexample :
    ((getGlobalVariable 9 imgC2 none (.int 32) st0 (some 100) false "g").bind
      (fun r1 => (getGlobalVariable 9 imgC2 none (.int 32) r1.2 (some 100) false "g").map
        (fun r2 => (r1.1, r2.1)))) = some (none, some 0) := by
  decide

/-- C3 counterexample: the installed global (id 1) ends up with an
initializer that references the global itself -- the struct field holds a
cast of the global -- because the cycle detection only follows initializers
that are plain global references. -/
theorem C3_counterexample :
    (getGlobalVariable 9 imgC3 none (.int 32) st0 (some 100) false "g").map
        (fun r => (r.1, moduleHasDirectSelfRef r.2.mod)) = some (some 1, true) := by
  decide

/-- C2 amended: when the creation check passes, no global is registered yet,
and no initializer constant can be read (no debug/config/crypto override and
the special reader yields nothing), the call returns null and inserts a
ConfigStore entry for the address -- but the partially built IR-level global
REMAINS in the module; it is not erased. -/
theorem C2_amended_unreadable_registers_and_keeps (fuel : Nat) (objf : FileImage)
    (defTy : Typ) (st : GState) (ad : Nat) (strict : Bool) (name : String)
    (hcan : globalVariableCanBeCreated st.cfg objf (some ad) strict = true)
    (hmiss : getLlvmGlobalVariable st.mod st.cfg (appendHex name ad) ad = none)
    (hcfg : lookupA st.cfg.globals ad = none)
    (hcr : lookupA st.cfg.crypto ad = none)
    (hspec : objf.getConstantSpecial ad = none) :
    ∃ st2, getGlobalVariable fuel objf none defTy st (some ad) strict name =
        some (none, st2) ∧
      (lookupA st2.cfg.globals ad).map CGlobal.gvId = some st.next ∧
      (st2.mod.globals.map GVar.id).contains st.next = true := by
  unfold getGlobalVariable
  rw [hcan]
  simp only [Bool.not_true, Bool.false_eq_true, if_false, hmiss, hcr]
  unfold ggvStages
  simp only [Option.bind, hcfg, hcr]
  unfold ggvCreate
  simp only [hspec]
  unfold detectGlobalVariableInitializerCycle
  refine ⟨_, rfl, ?_, ?_⟩
  · simp [insertGlobalVariableCfg, pushGV, lookupA, List.find?]
  · simp [insertGlobalVariableCfg, pushGV]

/-- Witness for the amended C2: the concrete unreadable-initializer run. -/
theorem C2_amended_unreadable_registers_and_keeps_witness :
    ∃ st2, getGlobalVariable 9 imgC2 none (.int 32) st0 (some 100) false "g" =
        some (none, st2) ∧
      (lookupA st2.cfg.globals 100).map CGlobal.gvId = some st0.next ∧
      (st2.mod.globals.map GVar.id).contains st0.next = true :=
  C2_amended_unreadable_registers_and_keeps 9 imgC2 (.int 32) st0 100 false "g"
    (by decide) (by decide) (by decide) (by decide) rfl


/-- After appending a global with a fresh (strictly larger) id, looking that
id up finds exactly the appended global. -/
theorem findGV_append_fresh (m : LlvmModule) (gv : GVar)
    (hfresh : ∀ g ∈ m.globals, g.id < gv.id) :
    LlvmModule.findGV ⟨m.globals ++ [gv]⟩ gv.id = some gv := by
  unfold LlvmModule.findGV
  rw [List.find?_append]
  have h1 : m.globals.find? (fun g => g.id == gv.id) = none := by
    rw [List.find?_eq_none]
    intro g hg
    simp only [beq_iff_eq]
    exact Nat.ne_of_lt (hfresh g hg)
  rw [h1]
  simp [List.find?]

/-- The creation tail leaves the parts of the config that the creation
heuristic reads untouched. -/
theorem ggvCreate_cfg_misc (fuel : Nat) (objf : FileImage) (defTy : Typ) (st : GState)
    (ad : Nat) (cand : GCand) (isC : Bool) (cd : String) (r : Option Nat) (st1 : GState)
    (h : ggvCreate fuel objf defTy st ad cand isC cd = some (r, st1)) :
    st1.cfg.funcAddrs = st.cfg.funcAddrs ∧ st1.cfg.armOrThumb = st.cfg.armOrThumb ∧
      st1.cfg.pic32 = st.cfg.pic32 := by
  unfold ggvCreate at h
  dsimp only at h
  repeat' split at h
  all_goals try cases h
  all_goals exact ⟨rfl, rfl, rfl⟩

/-- The creation heuristic only reads the function addresses and the two
architecture flags of the config. -/
theorem globalVariableCanBeCreated_congr (cfg1 cfg2 : Config) (objf : FileImage)
    (addr : Option Nat) (strict : Bool)
    (hf : cfg1.funcAddrs = cfg2.funcAddrs) (ha : cfg1.armOrThumb = cfg2.armOrThumb)
    (hp : cfg1.pic32 = cfg2.pic32) :
    globalVariableCanBeCreated cfg1 objf addr strict =
      globalVariableCanBeCreated cfg2 objf addr strict := by
  unfold globalVariableCanBeCreated
  rw [hf, ha, hp]

/-- If some global of a module has the id, `findGV` returns a global with
that id. -/
theorem findGV_mem_id (m : LlvmModule) (i : Nat) (hex : ∃ g ∈ m.globals, g.id = i) :
    ∃ g, m.findGV i = some g ∧ g.id = i := by
  unfold LlvmModule.findGV
  have hs : (m.globals.find? (fun g => g.id == i)).isSome := by
    rw [List.find?_isSome]
    obtain ⟨g, hg, he⟩ := hex
    exact ⟨g, hg, by simp [he]⟩
  obtain ⟨g, hg⟩ := Option.isSome_iff_exists.mp hs
  refine ⟨g, hg, ?_⟩
  have := List.find?_some hg
  simpa using this

/-- A successful creation registers the returned global: afterwards the
ConfigStore lookup at the address yields an IR global with the returned id. -/
theorem ggvCreate_success_lookup (fuel : Nat) (objf : FileImage) (defTy : Typ) (st : GState)
    (ad : Nat) (cand : GCand) (isC : Bool) (cd : String) (gid : Nat) (st1 : GState)
    (nm : String)
    (hfresh : ∀ g ∈ st.mod.globals, g.id < st.next)
    (h : ggvCreate fuel objf defTy st ad cand isC cd = some (some gid, st1)) :
    ∃ g, getLlvmGlobalVariable st1.mod st1.cfg nm ad = some g ∧ g.id = gid := by
  unfold ggvCreate at h
  dsimp only at h
  repeat' split at h
  all_goals try cases h
  · -- candidate initializer present: the first global is installed
    refine ⟨_, ?_, rfl⟩
    unfold getLlvmGlobalVariable insertGlobalVariableCfg
    simp only [lookupA, List.find?, beq_self_eq_true, Option.map_some]
    exact findGV_append_fresh st.mod _ (fun g hg => hfresh g hg)
  · -- cycle path, uses rewritten: the second global is installed
    unfold getLlvmGlobalVariable insertGlobalVariableCfg
    try dsimp only
    simp only [lookupA, List.find?, beq_self_eq_true, Option.map_some]
    apply findGV_mem_id
    simp only [pushGV, rauwGV, eraseGV]
    try dsimp only
    refine ⟨_, List.mem_filter.mpr
      ⟨List.mem_map_of_mem _ (List.mem_append_right _ (List.mem_singleton_self _)), ?_⟩, rfl⟩
    simp
  · -- cycle path, no use rewriting needed
    unfold getLlvmGlobalVariable insertGlobalVariableCfg
    try dsimp only
    simp only [lookupA, List.find?, beq_self_eq_true, Option.map_some]
    apply findGV_mem_id
    simp only [pushGV, eraseGV]
    try dsimp only
    refine ⟨_, List.mem_filter.mpr
      ⟨List.mem_append_right _ (List.mem_singleton_self _), ?_⟩, rfl⟩
    simp

/-- C6 amended: whenever `getGlobalVariable` returns a (non-null) global,
calling it again with the same arguments returns that same global and the
same state. The freshness hypothesis -- the id counter is ahead of every
global in the module -- holds for every state the model constructs. -/
theorem C6_amended_nonnull_idempotent (fuel : Nat) (objf : FileImage)
    (dbgf : Option DebugFormat) (defTy : Typ) (st : GState) (ad : Nat) (strict : Bool)
    (name : String) (gid : Nat) (st1 : GState)
    (hfresh : ∀ g ∈ st.mod.globals, g.id < st.next)
    (h : getGlobalVariable fuel objf dbgf defTy st (some ad) strict name =
      some (some gid, st1)) :
    getGlobalVariable fuel objf dbgf defTy st1 (some ad) strict name =
      some (some gid, st1) := by
  have hcan : globalVariableCanBeCreated st.cfg objf (some ad) strict = true := by
    by_cases hc : globalVariableCanBeCreated st.cfg objf (some ad) strict = true
    · exact hc
    · exfalso
      rw [Bool.not_eq_true] at hc
      unfold getGlobalVariable at h
      rw [hc] at h
      simp at h
  unfold getGlobalVariable at h
  rw [hcan] at h
  simp only [Bool.not_true, Bool.false_eq_true, if_false] at h
  rcases hl : getLlvmGlobalVariable st.mod st.cfg (appendHex name ad) ad with _ | g
  · simp only [hl] at h
    have hmisc := ggvCreate_cfg_misc _ _ _ _ _ _ _ _ _ _ h
    have hcan2 : globalVariableCanBeCreated st1.cfg objf (some ad) strict = true := by
      rw [globalVariableCanBeCreated_congr st1.cfg st.cfg objf (some ad) strict hmisc.1
        hmisc.2.1 hmisc.2.2]
      exact hcan
    obtain ⟨g2, hg2, hid⟩ := ggvCreate_success_lookup _ _ _ _ _ _ _ _ _ _
      (appendHex name ad) hfresh h
    unfold getGlobalVariable
    rw [hcan2]
    simp only [Bool.not_true, Bool.false_eq_true, if_false, hg2, hid]
  · simp only [hl] at h
    cases h
    unfold getGlobalVariable
    rw [hcan]
    simp only [Bool.not_true, Bool.false_eq_true, if_false, hl]

/-- Witness for the amended C6: a state in which the global at address 100
is already registered; both calls return it unchanged. -/
theorem C6_amended_nonnull_idempotent_witness :
    getGlobalVariable 9 imgC2 none (.int 32)
        ⟨⟨[⟨0, "g_64", .int 32, none, false⟩]⟩,
          ⟨[(100, ⟨0, "g_64", some (.int 32), false, "", ""⟩)], [], [], [], false, false⟩, 1⟩
        (some 100) false "g" =
      some (some 0,
        ⟨⟨[⟨0, "g_64", .int 32, none, false⟩]⟩,
          ⟨[(100, ⟨0, "g_64", some (.int 32), false, "", ""⟩)], [], [], [], false, false⟩, 1⟩) :=
  C6_amended_nonnull_idempotent 9 imgC2 none (.int 32)
    ⟨⟨[⟨0, "g_64", .int 32, none, false⟩]⟩,
      ⟨[(100, ⟨0, "g_64", some (.int 32), false, "", ""⟩)], [], [], [], false, false⟩, 1⟩
    100 false "g" 0
    ⟨⟨[⟨0, "g_64", .int 32, none, false⟩]⟩,
      ⟨[(100, ⟨0, "g_64", some (.int 32), false, "", ""⟩)], [], [], [], false, false⟩, 1⟩
    (by decide) (by decide)

/-- A chain from global id `g` to `tgt`, following initializers that are
themselves plain global references, of length at most `k`. -/
inductive ChainReaches (m : LlvmModule) (tgt : Nat) : Nat → Nat → Prop where
  | here (k g : Nat) (h : g = tgt) : ChainReaches m tgt k g
  | step (k g nxt : Nat) (gv : GVar) (tt : Typ) (hg : m.findGV g = some gv)
      (hi : gv.ini = some (.gref nxt tt)) (hr : ChainReaches m tgt k nxt) :
      ChainReaches m tgt (k + 1) g

/-- The loop of the cycle detection finds every such chain, given enough
fuel. -/
theorem followInitChain_of_chain (m : LlvmModule) (tgt : Nat) :
    ∀ (k g : Nat), ChainReaches m tgt k g → ∀ fuel, k < fuel →
      followInitChain m tgt fuel (some g) = true := by
  intro k g hc
  induction hc with
  | here k g h =>
    intro fuel hf
    cases fuel with
    | zero => omega
    | succ n =>
      subst h
      simp [followInitChain]
  | step k g nxt gv tt hg hi hr ih =>
    intro fuel hf
    cases fuel with
    | zero => omega
    | succ n =>
      unfold followInitChain
      by_cases he : g = tgt
      · rw [if_pos he]
      · rw [if_neg he]
        simp only [hg, hi]
        exact ih n (by omega)

/-- C3 amended: the cycle detection replaces the initializer by a plain
word-sized constant read at the address exactly for the cycles it can see:
the constant read from the image is the global itself, or a global from
which a chain of initializers that are themselves plain global references
reaches the global. Self-references nested inside aggregate fields or cast
expressions pass through undetected (see the counterexample). -/
theorem C3_amended_chain_cycles_replaced (m : LlvmModule) (defTy : Typ) (objf : FileImage)
    (gv : GVar) (ad : Nat) (g0 : Nat) (t0 : Typ) (k : Nat)
    (hchain : ChainReaches m gv.id k g0) (hk : k < m.globals.length + 1) :
    detectGlobalVariableInitializerCycle m defTy objf gv (some (.gref g0 t0)) (some ad) =
      objf.getConstantTyped defTy (some ad) false := by
  simp only [detectGlobalVariableInitializerCycle]
  by_cases he : g0 = gv.id
  · rw [if_pos (show constIsGVRef (Const.gref g0 t0) gv.id = true by simp [constIsGVRef, he])]
  · rw [if_neg (show ¬constIsGVRef (Const.gref g0 t0) gv.id = true by
      simp [constIsGVRef, he])]
    simp only [followInitChain_of_chain m gv.id k g0 hchain (m.globals.length + 1) hk,
      if_true]

/-- Witness for the amended C3: a one-step chain 5 -> 7 is replaced by the
word read. -/
theorem C3_amended_chain_cycles_replaced_witness :
    detectGlobalVariableInitializerCycle
        ⟨[⟨5, "a", .int 32, some (.gref 7 (.ptr (.int 32))), false⟩]⟩ (.int 32) imgC2
        ⟨7, "b", .int 32, none, false⟩ (some (.gref 5 (.ptr (.int 32)))) (some 100) =
      imgC2.getConstantTyped (.int 32) (some 100) false :=
  C3_amended_chain_cycles_replaced
    ⟨[⟨5, "a", .int 32, some (.gref 7 (.ptr (.int 32))), false⟩]⟩ (.int 32) imgC2
    ⟨7, "b", .int 32, none, false⟩ 100 5 (.ptr (.int 32)) 1
    (ChainReaches.step 0 5 7 ⟨5, "a", .int 32, some (.gref 7 (.ptr (.int 32))), false⟩
      (.ptr (.int 32)) (by decide) (by decide) (ChainReaches.here 0 7 rfl))
    (by decide)

/-- A function for stack-slot allocation: its id and the ids of its
instructions in order (`inst_begin` is the head). -/
structure SFun where
  id : Nat
  insts : List Nat
deriving DecidableEq, Repr

/-- An alloca instruction created for a stack slot. -/
structure SAlloca where
  id : Nat
  fnId : Nat
  ty : Typ
  name : String
deriving DecidableEq, Repr

/-- State for stack-slot allocation: the ConfigStore, the allocas created so
far, and the id counter. -/
structure SState where
  cfg : Config
  allocas : List SAlloca
  next : Nat
deriving DecidableEq, Repr

/-- `PointerType::isValidElementType`: every type but void (and the few
metadata-like types outside this model) may be allocated. -/
def isValidElementType (t : Typ) : Bool := t != .void

/-- Modelled from the spec: `Config::getLlvmStackVariable` -- the stack slot
registered under (function, offset). -/
def getLlvmStackVariable (cfg : Config) (fnId : Nat) (offset : Int) : Option Nat :=
  (cfg.stackVars.find? (fun p => p.1 == (fnId, offset))).map (fun p => p.2)

/-- Modelled from the spec: `Config::getConfigStackVariable` -- the config
entry (its (function, offset) key) for a given alloca. -/
def getConfigStackVariable (cfg : Config) (aid : Nat) : Option (Nat × Int) :=
  (cfg.stackVars.find? (fun p => p.2 == aid)).map (fun p => p.1)

/-- Modelled from the spec: `Config::insertStackVariable` -- register the
alloca under (function, offset). -/
def insertStackVariable (cfg : Config) (fnId : Nat) (offset : Int) (aid : Nat) : Config :=
  { cfg with stackVars := ((fnId, offset), aid) :: cfg.stackVars }

/-- `IrModifier::getStackVariable`: get or create-and-get the stack slot of a
function at an offset. Fails (assertion) when a registered slot has no config
entry or when the function has no instruction to insert before. Returns the
alloca id, its config key, and the updated function and state. -/
def getStackVariable (defTy : Typ) (st : SState) (fnc : SFun) (offset : Int) (type : Typ)
    (name : String) : Option (Nat × (Nat × Int) × SFun × SState) :=
  let ty2 := if isValidElementType type then type else defTy
  let n := (if name = "" then "stack_var" else name) ++ "_" ++ toString offset
  match getLlvmStackVariable st.cfg fnc.id offset with
  | some aid =>
    match getConfigStackVariable st.cfg aid with
    | some csv => some (aid, csv, fnc, st)
    | none => none
  | none =>
    match fnc.insts with
    | [] => none
    | i0 :: rest =>
      let aid := st.next
      let fnc2 : SFun := ⟨fnc.id, aid :: i0 :: rest⟩
      let st2 : SState := ⟨insertStackVariable st.cfg fnc.id offset aid,
        st.allocas ++ [⟨aid, fnc.id, ty2, n⟩], st.next + 1⟩
      some (aid, (fnc.id, offset), fnc2, st2)

/-- C7: a second call to `getStackVariable` with the same function and
offset returns the same alloca as the first, found through the (function,
offset) registration, and allocates nothing new (function and state are
returned unchanged by the second call). -/
theorem C7_getStackVariable_idempotent (defTy : Typ) (st : SState) (fnc : SFun)
    (offset : Int) (type : Typ) (name : String) (aid : Nat) (csv : Nat × Int)
    (fnc2 : SFun) (st2 : SState)
    (h : getStackVariable defTy st fnc offset type name = some (aid, csv, fnc2, st2)) :
    getStackVariable defTy st2 fnc2 offset type name = some (aid, csv, fnc2, st2) := by
  unfold getStackVariable at h ⊢
  dsimp only at h ⊢
  split at h
  · -- first call found a registered slot
    split at h
    · cases h
      rename_i hlook hcfg
      simp only [hlook, hcfg]
    · cases h
  · -- first call created and registered the slot
    split at h
    · cases h
    · cases h
      rename_i hmiss i0 rest heq
      have hl2 : getLlvmStackVariable
          (insertStackVariable st.cfg fnc.id offset st.next) fnc.id offset = some st.next := by
        simp [getLlvmStackVariable, insertStackVariable, List.find?]
      have hc2 : getConfigStackVariable
          (insertStackVariable st.cfg fnc.id offset st.next) st.next = some (fnc.id, offset) := by
        simp [getConfigStackVariable, insertStackVariable, List.find?]
      simp only [hl2, hc2]

/-- Witness for C7: create a slot at (function 1, offset -16) and fetch it
again. -/
theorem C7_getStackVariable_idempotent_witness :
    getStackVariable (.int 32)
        ⟨⟨[], [], [((1, -16), 0)], [], false, false⟩, [⟨0, 1, .int 32, "x_-16"⟩], 1⟩
        ⟨1, [0, 9]⟩ (-16) (.int 32) "x" =
      some (0, (1, -16),
        ⟨1, [0, 9]⟩,
        ⟨⟨[], [], [((1, -16), 0)], [], false, false⟩, [⟨0, 1, .int 32, "x_-16"⟩], 1⟩) :=
  C7_getStackVariable_idempotent (.int 32)
    ⟨⟨[], [], [], [], false, false⟩, [], 0⟩ ⟨1, [9]⟩ (-16) (.int 32) "x" 0 (1, -16)
    ⟨1, [0, 9]⟩
    ⟨⟨[], [], [((1, -16), 0)], [], false, false⟩, [⟨0, 1, .int 32, "x_-16"⟩], 1⟩
    (by decide)

/-- An instruction of the `localize` model: a store (value and pointer
operands as value ids), an alloca, or any other instruction with its operand
ids. -/
inductive LInst where
  | lstore (id : Nat) (valOp ptrOp : Nat)
  | lalloca (id : Nat) (ty : Typ)
  | lother (id : Nat) (ops : List Nat)
deriving DecidableEq, Repr

/-- Instruction id. -/
def LInst.iid : LInst → Nat
  | .lstore i _ _ => i
  | .lalloca i _ => i
  | .lother i _ => i

/-- Operand ids. -/
def LInst.opsOf : LInst → List Nat
  | .lstore _ v p => [v, p]
  | .lalloca _ _ => []
  | .lother _ ops => ops

/-- `User::replaceUsesOfWith`: swap every operand equal to `frm` for `toV`. -/
def LInst.replaceUsesOfWith (i : LInst) (frm toV : Nat) : LInst :=
  match i with
  | .lstore id v p => .lstore id (if v = frm then toV else v) (if p = frm then toV else p)
  | .lalloca id ty => .lalloca id ty
  | .lother id ops => .lother id (ops.map (fun o => if o = frm then toV else o))

/-- A function as a list of basic blocks (the first is the entry block). -/
structure LFun where
  blocks : List (List LInst)
deriving DecidableEq, Repr

/-- Find an instruction by id. -/
def findInst (f : LFun) (i : Nat) : Option LInst :=
  f.blocks.join.find? (fun j => j.iid == i)

/-- `IrModifier::localize`: given the defining store (by id), insert a fresh
alloca of the pointer operand's pointee type at the entry block front, put a
store of the original value to the new alloca in the place of the original
store, erase the original store, and patch every instruction in `uses` to
refer to the new alloca. The new alloca gets id `freshBase`, the new store
id `freshBase + 1`. Fails when the store cannot be found, its pointer
operand is not pointer-typed, or there is no entry-block instruction to
insert before. -/
def localize (tyOf : Nat → Typ) (f : LFun) (sid : Nat) (uses : List Nat)
    (freshBase : Nat) : Option LFun :=
  match findInst f sid with
  | some (.lstore _ vOp pOp) =>
    match tyOf pOp with
    | .ptr e =>
      match f.blocks with
      | [] => none
      | entry :: restBlocks =>
        match entry with
        | [] => none
        | e0 :: erest =>
          let f1 : LFun := ⟨(LInst.lalloca freshBase e :: e0 :: erest) :: restBlocks⟩
          let ns := LInst.lstore (freshBase + 1) vOp freshBase
          let f2 : LFun := ⟨f1.blocks.map (fun blk => blk.map (fun i =>
            if i.iid = sid then ns else i))⟩
          some ⟨f2.blocks.map (fun blk => blk.map (fun i =>
            if uses.contains i.iid then i.replaceUsesOfWith pOp freshBase else i))⟩
    | _ => none
  | _ => none

/-- C9 counterexample: with an empty use-set and a second instruction `1`
using the pointer `20`, localize leaves an occurrence of the pointer in
instruction `1`, which is neither the inserted alloca (id 2) nor the
inserted store (id 3) nor a patched use -- so the pointer does occur in the
function outside the newly inserted alloca/store and the patched uses. -/
theorem C9_counterexample :
    (localize (fun v => if v = 20 then .ptr (.int 32) else .int 32)
        ⟨[[.lstore 0 10 20, .lother 1 [20]]]⟩ 0 [] 2).map
      (fun f2 => f2.blocks.join.any (fun i =>
        (i.opsOf.contains 20) && !(i.iid == 2) && !(i.iid == 3))) = some true := by
  decide

/-- Replacement never leaves an occurrence of the replaced operand behind
(provided the replacement differs from it). -/
theorem replaceUsesOfWith_no_old (i : LInst) (frm toV : Nat) (hne : toV ≠ frm) :
    frm ∉ (i.replaceUsesOfWith frm toV).opsOf := by
  cases i <;> simp [LInst.replaceUsesOfWith, LInst.opsOf]
  · constructor <;> split <;> simp_all <;> omega
  · intro o ho
    split <;> simp_all <;> omega

/-- Replacement keeps the instruction id. -/
theorem replaceUsesOfWith_id (i : LInst) (frm toV : Nat) :
    (i.replaceUsesOfWith frm toV).iid = i.iid := by
  cases i <;> rfl

/-- Membership in a block list mapped by two per-instruction functions. -/
theorem mem_mapmap_join {β : Type} (F G : β → β) (B : List (List β)) (x : β) :
    (x ∈ ((B.map (fun blk => blk.map G)).map (fun blk => blk.map F)).join) ↔
      ∃ blk ∈ B, ∃ x0 ∈ blk, x = F (G x0) := by
  simp only [List.map_map, List.mem_join, List.mem_map, Function.comp]
  constructor
  · rintro ⟨l, ⟨blk, hblk, rfl⟩, hx⟩
    simp only [List.mem_map] at hx
    obtain ⟨x0, hx0, rfl⟩ := hx
    exact ⟨blk, hblk, x0, hx0, rfl⟩
  · rintro ⟨blk, hblk, x0, hx0, rfl⟩
    exact ⟨blk.map (fun y => F (G y)), ⟨blk, hblk, rfl⟩, List.mem_map_of_mem _ hx0⟩

/-- The use-patching step keeps the instruction id. -/
theorem patch_iid (uses : List Nat) (pOp nb : Nat) (x : LInst) :
    (if uses.contains x.iid = true then x.replaceUsesOfWith pOp nb else x).iid = x.iid := by
  split
  · exact replaceUsesOfWith_id x pOp nb
  · rfl

/-- In a block containing the original store, the store-replacement map
followed by the use-patching map leaves the new store at the original
position. -/
theorem patch_block_at (uses : List Nat) (sid freshBase vOp pOp : Nat)
    (blk : List LInst) (ii : Nat)
    (hb : blk[ii]? = some (LInst.lstore sid vOp pOp))
    (hu1 : (freshBase + 1) ∉ uses) :
    ((blk.map (fun i => if i.iid = sid then LInst.lstore (freshBase + 1) vOp freshBase else i)).map
      (fun i => if uses.contains i.iid then i.replaceUsesOfWith pOp freshBase else i))[ii]? =
      some (LInst.lstore (freshBase + 1) vOp freshBase) := by
  have hcontains : uses.contains (freshBase + 1) = false := by simpa using hu1
  simp only [List.getElem?_map, hb]
  simp [LInst.iid, hcontains]
  exact fun hx => absurd hx hu1

/-- C9: localize inserts a fresh alloca of the pointee type at the entry
block front, puts a store of the original value to the new alloca at the
original store's position, and erases the original store; provided the
supplied use-set covers every other instruction that refers to the pointer
operand (a premise the source never checks, and without which stale
references survive), the pointer operand afterwards occurs only in the
inserted store. -/
theorem C9_amended_localize (tyOf : Nat → Typ) (f : LFun) (sid : Nat)
    (uses : List Nat) (freshBase vOp pOp : Nat) (e : Typ) (f2 : LFun)
    (hfind : findInst f sid = some (.lstore sid vOp pOp))
    (hty : tyOf pOp = .ptr e)
    (hp1 : pOp ≠ freshBase)
    (hu1 : (freshBase + 1) ∉ uses)
    (hs1 : freshBase ≠ sid) (hs2 : freshBase + 1 ≠ sid)
    (hcover : ∀ i ∈ f.blocks.join, i.iid ≠ sid → pOp ∈ i.opsOf → i.iid ∈ uses)
    (h : localize tyOf f sid uses freshBase = some f2) :
    (f2.blocks.head?.bind List.head? = some (.lalloca freshBase e)) ∧
    (∀ bi ii, (f.blocks[bi]?.bind (fun blk => blk[ii]?)) = some (.lstore sid vOp pOp) →
      (f2.blocks[bi]?.bind (fun blk => blk[if bi = 0 then ii + 1 else ii]?)) =
        some (.lstore (freshBase + 1) vOp freshBase)) ∧
    (∀ i ∈ f2.blocks.join, i.iid ≠ sid) ∧
    (∀ i ∈ f2.blocks.join, pOp ∈ i.opsOf → i.iid = freshBase + 1) := by
  obtain ⟨blocks⟩ := f
  simp only [localize, hfind, hty] at h
  cases blocks with
  | nil => cases h
  | cons entry rest =>
    cases entry with
    | nil => cases h
    | cons e0 erest =>
      try dsimp only at h
      simp only [Option.some.injEq] at h
      subst h
      have hcontains : uses.contains (freshBase + 1) = false := by simpa using hu1
      refine ⟨?_, ?_, ?_, ?_⟩
      · simp only [List.map_cons, List.head?_cons, Option.some_bind]
        simp only [LInst.iid]
        rw [if_neg hs1]
        simp [LInst.replaceUsesOfWith]
      · intro bi ii hb
        cases bi with
        | zero =>
          simp only [List.getElem?_cons_zero, Option.some_bind] at hb
          simp only [List.map_cons, List.getElem?_cons_zero, Option.some_bind, if_true,
            eq_self_iff_true]
          rw [List.getElem?_cons_succ]
          exact patch_block_at uses sid freshBase vOp pOp (e0 :: erest) ii hb hu1
        | succ k =>
          simp only [List.getElem?_cons_succ] at hb
          have hk0 : (if (k + 1 : Nat) = 0 then ii + 1 else ii) = ii :=
            if_neg (Nat.succ_ne_zero k)
          simp only [List.map_cons, List.getElem?_cons_succ, List.getElem?_map, hk0]
          cases hrk : rest[k]? with
          | none => rw [hrk] at hb; cases hb
          | some blk =>
            rw [hrk] at hb
            exact patch_block_at uses sid freshBase vOp pOp blk ii hb hu1
      · intro i2 hmem
        rw [mem_mapmap_join] at hmem
        obtain ⟨blk0, hblk0, i0, hi0, rfl⟩ := hmem
        beta_reduce
        rw [patch_iid]
        by_cases hsid : i0.iid = sid
        · rw [if_pos hsid]
          exact hs2
        · rw [if_neg hsid]
          exact hsid
      · intro i2 hmem hpop
        rw [mem_mapmap_join] at hmem
        obtain ⟨blk0, hblk0, i0, hi0, rfl⟩ := hmem
        beta_reduce at hpop ⊢
        by_cases hsid : i0.iid = sid
        · rw [patch_iid, if_pos hsid]
          rfl
        · rw [if_neg hsid] at hpop ⊢
          by_cases hc : uses.contains i0.iid = true
          · rw [if_pos hc] at hpop
            exact absurd hpop (replaceUsesOfWith_no_old i0 pOp freshBase (Ne.symm hp1))
          · rw [if_neg hc] at hpop
            have hi0ne : i0.iid ∉ uses := by simpa using hc
            rcases List.mem_cons.mp hblk0 with hbeq | hbrest
            · subst hbeq
              rcases List.mem_cons.mp hi0 with hieq | hirest
              · subst hieq
                simp [LInst.opsOf] at hpop
              · have hi0mem : i0 ∈ ((e0 :: erest) :: rest).join :=
                  List.mem_join.mpr ⟨e0 :: erest, List.mem_cons_self _ _, hirest⟩
                exact absurd (hcover i0 hi0mem hsid hpop) hi0ne
            · have hi0mem : i0 ∈ ((e0 :: erest) :: rest).join :=
                List.mem_join.mpr ⟨blk0, List.mem_cons_of_mem _ hbrest, hi0⟩
              exact absurd (hcover i0 hi0mem hsid hpop) hi0ne

/-- Witness for C9: localize the store `0` of value `10` through pointer
`20` in a one-block function with one other use, covered by the use-set. -/
theorem C9_amended_localize_witness :
    ((⟨[[.lalloca 2 (.int 32), .lstore 3 10 2, .lother 1 [2]]]⟩ :
        LFun).blocks.head?.bind List.head? = some (.lalloca 2 (.int 32))) ∧
    (∀ bi ii, ((⟨[[.lstore 0 10 20, .lother 1 [20]]]⟩ : LFun).blocks[bi]?.bind
        (fun blk => blk[ii]?)) = some (.lstore 0 10 20) →
      ((⟨[[.lalloca 2 (.int 32), .lstore 3 10 2, .lother 1 [2]]]⟩ :
          LFun).blocks[bi]?.bind (fun blk => blk[if bi = 0 then ii + 1 else ii]?)) =
        some (.lstore 3 10 2)) ∧
    (∀ i ∈ (⟨[[.lalloca 2 (.int 32), .lstore 3 10 2, .lother 1 [2]]]⟩ :
        LFun).blocks.join, i.iid ≠ 0) ∧
    (∀ i ∈ (⟨[[.lalloca 2 (.int 32), .lstore 3 10 2, .lother 1 [2]]]⟩ :
        LFun).blocks.join, 20 ∈ i.opsOf → i.iid = 3) :=
  C9_amended_localize (fun v => if v = 20 then Typ.ptr (.int 32) else Typ.int 32)
    ⟨[[.lstore 0 10 20, .lother 1 [20]]]⟩ 0 [1] 2 10 20 (.int 32)
    ⟨[[.lalloca 2 (.int 32), .lstore 3 10 2, .lother 1 [2]]]⟩
    (by decide) (by decide) (by decide) (by decide) (by decide) (by decide)
    (by decide) (by decide)

/-- A user of the object in `changeObjectType`: a store (value and pointer
operands), a load (pointer operand and loaded type), a cast (kind, operand,
result type), any other instruction (operands and the operand types its
kind requires), a global-variable declaration whose initializer operand is
the object, or a plain constant user. -/
inductive UserInst where
  | ustore (id : Nat) (src dst : Value)
  | uload (id : Nat) (p : Value) (t : Typ)
  | ucast (id : Nat) (k : CastK) (op : Value) (t : Typ)
  | uinstr (id : Nat) (ops : List Value) (sig : List Typ)
  | ugvar (g : Nat) (contentTy : Typ) (ini : Const)
  | uconst (c : Const)
deriving DecidableEq, Repr

/-- The result of processing one user: the (possibly rewritten) user kept in
place, or the user erased after all its uses were redirected to `r`. -/
inductive PUser where
  | kept (u : UserInst)
  | replacedBy (r : Value)
deriving DecidableEq, Repr

/-- Direct operands of a constant. -/
def Const.operandsC : Const → List Const
  | .cexpr _ c _ => [c]
  | .cextr c _ => [c]
  | .cins a b _ => [a, b]
  | .cstruct _ fs => fs
  | _ => []

/-- Does the user refer to the value among its operands? -/
def UserInst.refersTo (u : UserInst) (v : Value) : Bool :=
  match u with
  | .ustore _ src dst => src == v || dst == v
  | .uload _ p _ => p == v
  | .ucast _ _ op _ => op == v
  | .uinstr _ ops _ => ops.contains v
  | .ugvar _ _ ini => Value.cst ini == v
  | .uconst c => (c.operandsC.map Value.cst).contains v

/-- Modelled from the spec: `modifyFunctionArgumentType` (a collaborator
outside this file) rebuilds the function signature with the argument at the
same position retyped; the argument value is kept and its type becomes the
target type. -/
def modifyFunctionArgumentType (i : Nat) (toType : Typ) : Value :=
  .argV i toType

/-- `changeObjectDeclarationType` (ir_modifier.cpp:630): an object of the
target type is returned as is; an alloca is re-created before the old one
with the target type; a global is re-created with the supplied initializer,
or one read from the image, and typed after the initializer when there is
one (the ConfigStore mirror update of lines 670-680 only rewrites config
metadata and is not modelled); an argument goes through the
signature-rewrite collaborator; anything else asserts. -/
def changeObjectDeclarationType (reader : Typ → Bool → Option Const) (val : Value)
    (toType : Typ) (init : Option Const) (wideString : Bool) (freshG : Nat)
    (st : ConvState) : Option (Value × ConvState) :=
  if val.typeOfV = toType then some (val, st)
  else
    match val with
    | .allocaV i _ =>
      let r := emitI (fun j => .allocaV j toType) (.before i) st
      some (r.1, r.2)
    | .cst (.gref _ _) =>
      let init2 := match init with
        | some c => some c
        | none => reader toType wideString
      let newTy := match init2 with
        | some c => c.typeOfC
        | none => toType
      some (.cst (.gref freshG (.ptr newTy)), st)
    | .argV i _ => some (modifyFunctionArgumentType i toType, st)
    | _ => none

/-- One iteration of the user-patching loop of `changeObjectType`
(ir_modifier.cpp:764-881), in the branch order of the source; `none` is an
assertion failure, a failed conversion, or an unhandled user. -/
def processUser (fuel : Nat) (val nval : Value) (origType : Typ)
    (newConst : Option Const) (u : UserInst) (st : ConvState) :
    Option (PUser × ConvState) :=
  match u with
  | .ustore id src dst =>
    if val = dst then
      match nval.typeOfV with
      | .ptr e =>
        match convertValueToType fuel (some src) (some e) (some id) st with
        | .ret conv st2 => some (.kept (.ustore id conv nval), st2)
        | _ => none
      | _ => none
    else
      match convertValueToType fuel (some nval) (some origType) (some id) st with
      | .ret conv st2 => some (.kept (.ustore id conv dst), st2)
      | _ => none
  | .uload id p t =>
    if val = p then
      match nval.typeOfV with
      | .ptr e =>
        let r := emitI (fun j => .loadV j nval e) (.before id) st
        match convertValueToType fuel (some r.1) (some t) (some id) r.2 with
        | .ret conv st2 =>
          if conv = .loadV id p t then some (.kept (.uload id p t), st2)
          else some (.replacedBy conv, st2)
        | _ => none
      | _ => none
    else none
  | .ucast id k op t =>
    if nval.typeOfV = t then
      if val = .castV id k op t then some (.kept (.ucast id k op t), st)
      else some (.replacedBy nval, st)
    else
      match convertValueToType fuel (some nval) (some t) (some id) st with
      | .ret conv st2 =>
        if Value.castV id k op t = conv then some (.kept (.ucast id k op t), st2)
        else some (.replacedBy conv, st2)
      | _ => none
  | .uinstr id ops sig =>
    match convertValueToType fuel (some nval) (some origType) (some id) st with
    | .ret conv st2 =>
      if val = conv then some (.kept (.uinstr id ops sig), st2)
      else some (.kept (.uinstr id (ops.map (fun o => if o = val then conv else o)) sig), st2)
    | _ => none
  | .ugvar g contentTy ini =>
    match newConst with
    | some nc =>
      match convertConstantToType fuel nc contentTy with
      | some conv =>
        if Const.gref g (.ptr contentTy) = conv then some (.kept (.ugvar g contentTy ini), st)
        else
          some (.kept (.ugvar g contentTy (if Value.cst ini = val then conv else ini)), st)
      | none => none
    | none => none
  | .uconst c =>
    match newConst with
    | some nc =>
      match convertConstantToType fuel nc c.typeOfC with
      | some conv =>
        if c = conv then some (.kept (.uconst c), st)
        else some (.replacedBy (.cst conv), st)
      | none => none
    | none => none

/-- The user-patching loop over the copied use-list, threading the emission
state. -/
def processUsers (fuel : Nat) (val nval : Value) (origType : Typ)
    (newConst : Option Const) : List UserInst → ConvState →
    Option (List PUser × ConvState)
  | [], st => some ([], st)
  | u :: us, st =>
    match processUser fuel val nval origType newConst u st with
    | some (pu, st2) =>
      match processUsers fuel val nval origType newConst us st2 with
      | some (pus, st3) => some (pu :: pus, st3)
      | none => none
    | none => none

/-- Object kinds `changeObjectType` accepts (alloca, global, argument). -/
def isChangeableObj : Value → Bool
  | .allocaV _ _ => true
  | .cst (.gref _ _) => true
  | .argV _ _ => true
  | _ => false

/-- `IrModifier::changeObjectType` (ir_modifier.cpp:718): reject other
object kinds, return the object untouched when it already has the target
type, otherwise re-declare it and patch every user from the copied
use-list. -/
def changeObjectType (fuel : Nat) (reader : Typ → Bool → Option Const) (val : Value)
    (toType : Typ) (init : Option Const) (wideString : Bool) (freshG : Nat)
    (users : List UserInst) (st : ConvState) :
    Option (Value × List PUser × ConvState) :=
  if isChangeableObj val = false then none
  else if val.typeOfV = toType then some (val, users.map .kept, st)
  else
    let origType := val.typeOfV
    match changeObjectDeclarationType reader val toType init wideString freshG st with
    | some (nval, st1) =>
      match processUsers fuel val nval origType nval.asConst users st1 with
      | some (pus, st2) => some (nval, pus, st2)
      | none => none
    | none => none

/-- The user type-checks in the IR type system: each operand has the type
its kind requires (a store's pointer operand points at its value operand's
type, a load's pointer operand points at the loaded type, an instruction's
operands carry the types its signature expects, a global's initializer
carries its content type; cast and constant users accept operands of any
first-class type). -/
def UserInst.wfU : UserInst → Bool
  | .ustore _ src dst => dst.typeOfV == .ptr src.typeOfV
  | .uload _ p t => p.typeOfV == .ptr t
  | .ucast _ _ _ _ => true
  | .uinstr _ ops sig => ops.map Value.typeOfV == sig
  | .ugvar _ contentTy ini => ini.typeOfC == contentTy
  | .uconst _ => true

/-- The type of a user as a value, as seen by its own users. -/
def UserInst.resTy : UserInst → Typ
  | .ustore _ _ _ => .void
  | .uload _ _ t => t
  | .ucast _ _ _ t => t
  | .uinstr _ _ _ => .void
  | .ugvar _ contentTy _ => .ptr contentTy
  | .uconst c => c.typeOfC

/-- A processed user type-checks: a kept user satisfies `wfU`; an erased
user was replaced, at every place that used it, by a value of its own
type, so every user of the erased user still type-checks. -/
def postOkB (u : UserInst) (p : PUser) : Bool :=
  match p with
  | .kept u2 => u2.wfU
  | .replacedBy r => r.typeOfV == u.resTy

/-- A successful constant conversion returns a constant of the target
type. -/
theorem convertConstantToType_ty (fuel : Nat) (c : Const) (t : Typ) (r : Const)
    (h : convertConstantToType fuel c t = some r) : r.typeOfC = t := by
  unfold convertConstantToType at h
  split at h
  · rename_i v st2 heq
    have ht := convertToType_ret_type fuel _ _ _ _ _ _ _ _ heq
    have hv := asConst_some_cst _ _ h
    subst hv
    simpa [Value.typeOfV] using ht
  · cases h

/-- Each processed user type-checks, given that the user type-checked
before, really referred to the object, and the declared original type is
the object's type. -/
theorem processUser_postOk (fuel : Nat) (val nval : Value) (origType : Typ)
    (newConst : Option Const) (u : UserInst) (st : ConvState) (pu : PUser)
    (st2 : ConvState)
    (hwf : u.wfU = true) (href : u.refersTo val = true)
    (horig : origType = val.typeOfV)
    (h : processUser fuel val nval origType newConst u st = some (pu, st2)) :
    postOkB u pu = true := by
  cases u with
  | ustore id src dst =>
    simp only [processUser] at h
    split at h
    · rename_i hdst
      split at h
      · rename_i e hnty
        split at h
        · rename_i conv st3 hcv
          cases h
          have hcty := convertToType_ret_type fuel _ _ _ _ _ _ _ _ hcv
          simp only [postOkB, UserInst.wfU, beq_iff_eq]
          rw [hnty, hcty]
        · cases h
      · cases h
    · rename_i hdst
      split at h
      · rename_i conv st3 hcv
        cases h
        have hcty := convertToType_ret_type fuel _ _ _ _ _ _ _ _ hcv
        have hsrc : src = val := by
          simp only [UserInst.refersTo, Bool.or_eq_true, beq_iff_eq] at href
          rcases href with h1 | h1
          · exact h1
          · exact absurd h1.symm hdst
        subst hsrc
        simp only [UserInst.wfU, beq_iff_eq] at hwf
        simp only [postOkB, UserInst.wfU, beq_iff_eq]
        rw [hcty]
        rw [← horig] at hwf
        exact hwf
      · cases h
  | uload id p t =>
    simp only [processUser] at h
    split at h
    · rename_i hp
      split at h
      · rename_i e hnty
        try dsimp only at h
        split at h
        · rename_i conv st3 hcv
          split at h
          · cases h
            exact hwf
          · cases h
            have hcty := convertToType_ret_type fuel _ _ _ _ _ _ _ _ hcv
            simp [postOkB, UserInst.resTy, hcty]
        · cases h
      · cases h
    · cases h
  | ucast id k op t =>
    simp only [processUser] at h
    split at h
    · rename_i hnt
      split at h
      · cases h
        rfl
      · cases h
        simp [postOkB, UserInst.resTy, hnt]
    · rename_i hnt
      split at h
      · rename_i conv st3 hcv
        split at h
        · cases h
          rfl
        · cases h
          have hcty := convertToType_ret_type fuel _ _ _ _ _ _ _ _ hcv
          simp [postOkB, UserInst.resTy, hcty]
      · cases h
  | uinstr id ops sig =>
    simp only [processUser] at h
    split at h
    · rename_i conv st3 hcv
      have hcty := convertToType_ret_type fuel _ _ _ _ _ _ _ _ hcv
      split at h
      · cases h
        exact hwf
      · cases h
        simp only [UserInst.wfU, beq_iff_eq] at hwf
        simp only [postOkB, UserInst.wfU, beq_iff_eq]
        rw [← hwf, List.map_map]
        apply List.map_congr_left
        intro o ho
        by_cases hov : o = val
        · simp [Function.comp, hov, hcty, horig]
        · simp [Function.comp, hov]
    · cases h
  | ugvar g contentTy ini =>
    simp only [processUser] at h
    split at h
    · rename_i nc
      split at h
      · rename_i conv hcc
        have hcty := convertConstantToType_ty fuel _ _ _ hcc
        split at h
        · cases h
          exact hwf
        · cases h
          simp only [UserInst.wfU, beq_iff_eq] at hwf
          simp only [postOkB, UserInst.wfU, beq_iff_eq]
          split
          · exact hcty
          · exact hwf
      · cases h
    · cases h
  | uconst c =>
    simp only [processUser] at h
    split at h
    · rename_i nc
      split at h
      · rename_i conv hcc
        have hcty := convertConstantToType_ty fuel _ _ _ hcc
        split at h
        · cases h
          rfl
        · cases h
          simp [postOkB, UserInst.resTy, Value.typeOfV, hcty]
      · cases h
    · cases h

/-- Pairs of a list zipped with its image under a map. -/
theorem zip_map_mem {α β : Type} (f : α → β) :
    ∀ (l : List α), ∀ p ∈ l.zip (l.map f), p.2 = f p.1 ∧ p.1 ∈ l := by
  intro l
  induction l with
  | nil => intro p hp; cases hp
  | cons x xs ih =>
    intro p hp
    rw [List.map_cons, List.zip_cons_cons] at hp
    rcases List.mem_cons.mp hp with rfl | hp2
    · exact ⟨rfl, List.mem_cons_self _ _⟩
    · obtain ⟨h1, h2⟩ := ih p hp2
      exact ⟨h1, List.mem_cons_of_mem _ h2⟩

/-- The whole user-patching loop keeps every processed user type-checking. -/
theorem processUsers_postOk (fuel : Nat) (val nval : Value) (origType : Typ)
    (newConst : Option Const) (horig : origType = val.typeOfV) :
    ∀ (users : List UserInst) (st : ConvState) (pus : List PUser) (st2 : ConvState),
    (∀ u ∈ users, u.wfU = true ∧ u.refersTo val = true) →
    processUsers fuel val nval origType newConst users st = some (pus, st2) →
    pus.length = users.length ∧
      ∀ up ∈ users.zip pus, postOkB up.1 up.2 = true := by
  intro users
  induction users with
  | nil =>
    intro st pus st2 hpre h
    simp only [processUsers] at h
    cases h
    exact ⟨rfl, by intro up hup; cases hup⟩
  | cons u us ih =>
    intro st pus st2 hpre h
    simp only [processUsers] at h
    split at h
    · rename_i pu st3 hpu
      split at h
      · rename_i pus3 st4 hps
        cases h
        have hu := hpre u (List.mem_cons_self u us)
        have h1 := processUser_postOk fuel val nval origType newConst u st pu st3
          hu.1 hu.2 horig hpu
        have h2 := ih st3 pus3 _ (fun x hx => hpre x (List.mem_cons_of_mem _ hx)) hps
        refine ⟨by simp [h2.1], ?_⟩
        intro up hup
        rw [List.zip_cons_cons] at hup
        rcases List.mem_cons.mp hup with rfl | hup2
        · exact h1
        · exact h2.2 up hup2
      · cases h
    · cases h

/-- C1: when `changeObjectType` completes on an alloca, global variable, or
function argument and every stored user type-checked and referred to the
object, then after the call every one of those users type-checks in the IR
type system: a kept user's operands have the types its kind requires
(patched to refer to the new object directly or through an inserted
conversion), and an erased user was replaced at all its use sites by a
value of the erased user's type. -/
theorem C1_changeObjectType_users_typecheck (fuel : Nat)
    (reader : Typ → Bool → Option Const) (val : Value) (toType : Typ)
    (init : Option Const) (ws : Bool) (freshG : Nat) (users : List UserInst)
    (st : ConvState) (nval : Value) (pus : List PUser) (st2 : ConvState)
    (hpre : ∀ u ∈ users, u.wfU = true ∧ u.refersTo val = true)
    (h : changeObjectType fuel reader val toType init ws freshG users st =
      some (nval, pus, st2)) :
    pus.length = users.length ∧
      ∀ up ∈ users.zip pus, postOkB up.1 up.2 = true := by
  simp only [changeObjectType] at h
  split at h
  · cases h
  · split at h
    · cases h
      refine ⟨by simp, ?_⟩
      intro up hup
      obtain ⟨he, hm⟩ := zip_map_mem PUser.kept users up hup
      have hw := (hpre up.1 hm).1
      rw [he]
      exact hw
    · try dsimp only at h
      split at h
      · rename_i nv st1 hdecl
        split at h
        · rename_i pus3 st3 hps
          cases h
          exact processUsers_postOk fuel val nval val.typeOfV nval.asConst rfl users st1
            pus st2 hpre hps
        · cases h
      · cases h

/-- Witness for C1: retype an `i32` alloca to `i16`; its single store user
is rewritten to store a freshly cast value into the new alloca and
type-checks. -/
theorem C1_changeObjectType_users_typecheck_witness :
    ([PUser.kept (.ustore 5 (.castV 11 .intcast (.othV 9 (.int 32)) (.int 16))
        (.allocaV 10 (.int 16)))].length =
      [UserInst.ustore 5 (.othV 9 (.int 32)) (.allocaV 0 (.int 32))].length) ∧
    (∀ up ∈ [UserInst.ustore 5 (.othV 9 (.int 32)) (.allocaV 0 (.int 32))].zip
        [PUser.kept (.ustore 5 (.castV 11 .intcast (.othV 9 (.int 32)) (.int 16))
          (.allocaV 10 (.int 16)))],
      postOkB up.1 up.2 = true) :=
  C1_changeObjectType_users_typecheck 4 (fun _ _ => none) (.allocaV 0 (.int 32))
    (.int 16) none false 0
    [.ustore 5 (.othV 9 (.int 32)) (.allocaV 0 (.int 32))] ⟨10, []⟩
    (.allocaV 10 (.int 16))
    [.kept (.ustore 5 (.castV 11 .intcast (.othV 9 (.int 32)) (.int 16))
      (.allocaV 10 (.int 16)))]
    ⟨12, [(.allocaV 10 (.int 16), .before 0),
      (.castV 11 .intcast (.othV 9 (.int 32)) (.int 16), .before 5)]⟩
    (by decide) (by decide)
